import Mathlib

/-!
Verification development for the OSRS price-suggester core pipeline.

The pipeline consists of four pure components, embedded here from the
TypeScript source:

* data conditioning (`processRawPriceData`, from `dataProcessingService`):
  gap-filling on a 5-minute grid, VWAP, fair-price SMA, rolling p90 margin
  bands;
* damped-trend exponential smoothing and forecast generation
  (`dampedTrendExponentialSmoothing`, `generateForecast`, from
  `forecastService`);
* the dual-mode pricing strategy (`calculateOfferPrices`,
  `calculateHistoricalOffers`, from `analysisService`);
* the fulfilment-probability estimator (`calculateFulfilmentProbability`,
  `normalCdf`, `erf`, from `fulfilmentService`).

JS numbers are idealised as elements of a linear ordered field with a floor
function (`ℚ` or `ℝ` at use sites; `ℝ` where `sqrt`/`exp` are required).
Nullable fields are `Option`s, timestamps are integers (seconds), trade
volumes are naturals.
-/

/-- A point of the (possibly forecast-augmented) price series, mirroring
`PriceDataPoint` from `types.ts`. -/
structure PriceDataPoint (α : Type) where
  timestamp : ℤ
  avgHighPrice : Option α := none
  avgLowPrice : Option α := none
  highPriceVolume : ℕ := 0
  lowPriceVolume : ℕ := 0
  fairPrice : Option α := none
  forecastPrice : Option α := none
  forecastHigh : Option α := none
  forecastLow : Option α := none
  forecastHigh_mean : Option α := none
  forecastHigh_upper : Option α := none
  forecastHigh_lower : Option α := none
  forecastLow_mean : Option α := none
  forecastLow_upper : Option α := none
  forecastLow_lower : Option α := none
  maxRealisticMargin : Option α := none
  maxRealisticMarginAfterTax : Option α := none
  p90LowSpread : Option α := none
  p90HighSpread : Option α := none
  buyOffer : Option α := none
  sellOffer : Option α := none
deriving DecidableEq

/-- A raw tick as supplied by the external price API, mirroring
`RawPriceDataPoint` from `dataProcessingService.ts` (the fields of a raw
5-minute bucket; high/low averages may be absent). -/
structure RawPriceDataPoint (α : Type) where
  timestamp : ℤ
  avgHighPrice : Option α := none
  avgLowPrice : Option α := none
  highPriceVolume : ℕ := 0
  lowPriceVolume : ℕ := 0
deriving DecidableEq

/-- Default point used to model JS array indexing that is always in range. -/
def dfltPoint {α : Type} : PriceDataPoint α := { timestamp := 0 }

/-- Default raw point for total modelling of in-range indexing. -/
def dfltRaw {α : Type} : RawPriceDataPoint α := { timestamp := 0 }

/-- JS truthiness of a nullable number: `null`/`undefined` and `0` are falsy. -/
def truthy {α : Type} [Zero α] [DecidableEq α] (o : Option α) : Prop :=
  match o with
  | none => False
  | some v => v ≠ 0

instance {α : Type} [Zero α] [DecidableEq α] (o : Option α) :
    Decidable (truthy o) := by
  unfold truthy
  cases o with
  | none => exact inferInstance
  | some v => exact inferInstance

section Conditioner

variable {α : Type} [LinearOrderedField α] [FloorRing α]

/-- `percentile` from `dataProcessingService.ts`: nearest-rank percentile of a
list (ascending sort, index `⌊(p/100)·(n−1)⌋`); `null` on an empty list. -/
def percentile (arr : List α) (p : α) : Option α :=
  if arr.length = 0 then none
  else
    let sortedArr := arr.mergeSort (fun a b => decide (a ≤ b))
    let index : ℕ := (⌊p / 100 * ((sortedArr.length : α) - 1)⌋).toNat
    some (sortedArr.getD index 0)

/-- `calculateGETax` from `dataProcessingService.ts`: 2% of the price,
floored, capped at 5,000,000. -/
def calculateGETax (price : α) : α :=
  min ((⌊price * (2 / 100)⌋ : ℤ) : α) 5000000

/-- Lookup in the JS `Map` built from the filtered raw data keyed by
timestamp: the last entry with a given key wins. -/
def rawDataMapGet (l : List (RawPriceDataPoint α)) (ts : ℤ) :
    Option (RawPriceDataPoint α) :=
  l.reverse.find? (fun r => decide (r.timestamp = ts))

/-- The timestamps visited by the regularisation loop
`for (let ts = minTs; ts <= maxTs; ts += 300)`. -/
def gridTimestamps (minTs maxTs : ℤ) : List ℤ :=
  if maxTs < minTs then []
  else (List.range ((maxTs - minTs).toNat / 300 + 1)).map
    (fun (i : ℕ) => minTs + 300 * (i : ℤ))

/-- The regularisation loop body: at each grid timestamp use the observed
tick when present, otherwise forward-fill the last observed tick with both
volumes zeroed; produce nothing while no tick has been observed yet. -/
def regularize (m : List (RawPriceDataPoint α)) (g : List ℤ)
    (lastKnown : Option (RawPriceDataPoint α)) : List (RawPriceDataPoint α) :=
  match g with
  | [] => []
  | ts :: rest =>
    match rawDataMapGet m ts with
    | some p => p :: regularize m rest (some p)
    | none =>
      match lastKnown with
      | some q =>
          { q with timestamp := ts, highPriceVolume := 0, lowPriceVolume := 0 }
            :: regularize m rest (some q)
      | none => regularize m rest none

/-- Step 1 of the conditioner: volume-weighted average price of a tick,
restricted to the sides with a non-null price; `null` without volume. -/
def computeVwap (p : RawPriceDataPoint α) : Option α :=
  let weightedHigh : α :=
    match p.avgHighPrice with
    | some h => h * (p.highPriceVolume : α)
    | none => 0
  let weightedLow : α :=
    match p.avgLowPrice with
    | some l => l * (p.lowPriceVolume : α)
    | none => 0
  let effectiveVolume : ℕ :=
    (if p.avgHighPrice.isSome then p.highPriceVolume else 0) +
      (if p.avgLowPrice.isSome then p.lowPriceVolume else 0)
  if 0 < effectiveVolume then
    some ((weightedHigh + weightedLow) / (effectiveVolume : α))
  else none

/-- Step 2 of the conditioner at one index: SMA of VWAP over the trailing
24-tick window (`slice(index − 23, index + 1)`), `null` for the first 23
indices, ignoring null VWAPs but requiring at least one. -/
def fairPriceAt (arr : List (RawPriceDataPoint α × Option α)) (i : ℕ) :
    Option α :=
  if i < 23 then none
  else
    let window := (arr.drop (i - 23)).take 24
    let vwapValues := window.filterMap (fun q => q.2)
    if 0 < vwapValues.length then
      some (vwapValues.sum / (vwapValues.length : α))
    else none

/-- Rebuild a `PriceDataPoint` from a raw tick and its fair price (the
`{...rest, fairPrice}` spread in Step 2). -/
def stage2Tick (r : RawPriceDataPoint α) (fair : Option α) :
    PriceDataPoint α :=
  { timestamp := r.timestamp
    avgHighPrice := r.avgHighPrice
    avgLowPrice := r.avgLowPrice
    highPriceVolume := r.highPriceVolume
    lowPriceVolume := r.lowPriceVolume
    fairPrice := fair }

/-- The low-side absolute spreads `|fairPrice − avgLowPrice|` of the window
ticks whose `fairPrice` and `avgLowPrice` are both truthy. -/
def lowDiffsOf (window : List (PriceDataPoint α)) : List α :=
  window.filterMap (fun p =>
    if truthy p.fairPrice ∧ truthy p.avgLowPrice then
      some |p.fairPrice.getD 0 - p.avgLowPrice.getD 0|
    else none)

/-- The high-side absolute spreads `|avgHighPrice − fairPrice|` of the window
ticks whose `fairPrice` and `avgHighPrice` are both truthy. -/
def highDiffsOf (window : List (PriceDataPoint α)) : List α :=
  window.filterMap (fun p =>
    if truthy p.fairPrice ∧ truthy p.avgHighPrice then
      some |p.avgHighPrice.getD 0 - p.fairPrice.getD 0|
    else none)

/-- Step 3 of the conditioner at one index: rolling 36-tick margin bands.
Emits the four derived fields (`null` for the first 35 indices, `null` when a
side has fewer than 5 qualifying samples, and each value only when
positive). -/
def marginTick (arr : List (PriceDataPoint α)) (i : ℕ) : PriceDataPoint α :=
  let point := arr.getD i dfltPoint
  if i < 35 then
    { point with
      maxRealisticMargin := none
      maxRealisticMarginAfterTax := none
      p90LowSpread := none
      p90HighSpread := none }
  else
    let window := (arr.drop (i - 35)).take 36
    let lowDiffs := lowDiffsOf window
    let highDiffs := highDiffsOf window
    if lowDiffs.length < 5 ∨ highDiffs.length < 5 then
      { point with
        maxRealisticMargin := none
        maxRealisticMarginAfterTax := none
        p90LowSpread := none
        p90HighSpread := none }
    else
      let lowP90 := (percentile lowDiffs 90).getD 0
      let highP90 := (percentile highDiffs 90).getD 0
      let maxRealisticMargin := lowP90 + highP90
      let maxRealisticMarginAfterTax : Option α :=
        if truthy point.fairPrice ∧ 0 < maxRealisticMargin then
          some (maxRealisticMargin -
            calculateGETax (point.fairPrice.getD 0 + highP90))
        else none
      { point with
        maxRealisticMargin :=
          if 0 < maxRealisticMargin then some maxRealisticMargin else none
        maxRealisticMarginAfterTax :=
          match maxRealisticMarginAfterTax with
          | some v => if 0 < v then some v else none
          | none => none
        p90LowSpread := if 0 < lowP90 then some lowP90 else none
        p90HighSpread := if 0 < highP90 then some highP90 else none }

/-- `processRawPriceData` from `dataProcessingService.ts`: the full data
conditioner (30-day window limiting, 5-minute regularisation with
forward-fill, VWAP, fair-price SMA, rolling margin bands). -/
def processRawPriceData (rawData : List (RawPriceDataPoint α)) :
    List (PriceDataPoint α) :=
  if rawData.length < 2 then []
  else
    let lastTimestamp := ((rawData.getLast?).map (fun p => p.timestamp)).getD 0
    let minTimestampThreshold := lastTimestamp - 2592000
    let filteredRawData :=
      rawData.filter (fun p => decide (minTimestampThreshold ≤ p.timestamp))
    if filteredRawData.length < 2 then []
    else
      let minTimestamp :=
        ((filteredRawData.head?).map (fun p => p.timestamp)).getD 0
      let maxTimestamp :=
        ((filteredRawData.getLast?).map (fun p => p.timestamp)).getD 0
      let regularizedData :=
        regularize filteredRawData (gridTimestamps minTimestamp maxTimestamp)
          none
      let dataWithVwap := regularizedData.map (fun p => (p, computeVwap p))
      let historyWithFairPrice := (List.range dataWithVwap.length).map
        (fun i =>
          stage2Tick (dataWithVwap.getD i (dfltRaw, none)).1
            (fairPriceAt dataWithVwap i))
      (List.range historyWithFairPrice.length).map
        (fun i => marginTick historyWithFairPrice i)

end Conditioner

/-- One point of the fulfilment analysis: a time horizon (hours) and the
estimated fill probability. -/
structure FulfilmentDataPoint where
  timeHorizonHours : ℕ
  probability : ℝ

/-- `FulfilmentAnalysis` from `types.ts`: buy- and sell-side probability
sequences over the fixed horizons. -/
structure FulfilmentAnalysis where
  buy : List FulfilmentDataPoint
  sell : List FulfilmentDataPoint

/-- The `analysisMethod` tag of an analysis result. -/
inductive AnalysisMethod where
  | historical
  | hybridForecast
deriving DecidableEq

/-- `OfferPriceAnalysis` from `types.ts`.  Recommended prices and profit are
integers (`Math.round` outputs); the margin is the formatted string. -/
structure OfferPriceAnalysis where
  recommendedBuy : Option ℤ
  recommendedSell : Option ℤ
  potentialProfit : Option ℤ
  potentialMargin : Option String
  analysisMethod : AnalysisMethod
  fulfilmentAnalysis : Option FulfilmentAnalysis

/-- Decimal rendering of `n/100` with exactly two fractional digits. -/
def natFixed2 (n : ℕ) : String :=
  Nat.repr (n / 100) ++ "." ++
    (if n % 100 < 10 then "0" ++ Nat.repr (n % 100) else Nat.repr (n % 100))

/-- JS `Number.prototype.toFixed(2)`: sign of the argument, then the
magnitude rounded to the nearest multiple of 1/100 with ties away from
zero. -/
def toFixed2 {α : Type} [LinearOrderedField α] [FloorRing α] (x : α) :
    String :=
  if x < 0 then "-" ++ natFixed2 (round ((-x) * 100)).toNat
  else natFixed2 (round (x * 100)).toNat

/-- `calculateGETax` from `analysisService.ts` applied to an integer price
(the rounded recommended sell): 2% floored, capped at 5,000,000. -/
def calculateGETaxInt (price : ℤ) : ℤ :=
  min ⌊(price : ℚ) * (2 / 100)⌋ 5000000

section Fulfilment

/-- The Abramowitz–Stegun rational approximation of the error function, as
implemented in `fulfilmentService.ts`. -/
noncomputable def erf (x : ℝ) : ℝ :=
  let sign : ℝ := if 0 ≤ x then 1 else -1
  let ax := |x|
  let t : ℝ := 1 / (1 + 0.3275911 * ax)
  let y : ℝ := 1 -
    (((((1.061405429 * t + -1.453152027) * t) + 1.421413741) * t +
        -0.284496736) * t + 0.254829592) * t * Real.exp (-ax * ax)
  sign * y

/-- `normalCdf` from `fulfilmentService.ts`: P(X ≤ x) for a normal
distribution; a step function when the standard deviation is not positive. -/
noncomputable def normalCdf (x mean stdDev : ℝ) : ℝ :=
  if stdDev ≤ 0 then (if x < mean then 0 else 1)
  else 0.5 * (1 + erf ((x - mean) / (stdDev * Real.sqrt 2)))

/-- The per-interval survival factors (1 − fill probability) for the buy and
sell sides, collected over a forecast slice; ticks with any missing forecast
field contribute nothing. -/
noncomputable def intervalFactors (buyOffer sellOffer : ℝ)
    (slice : List (PriceDataPoint ℝ)) : List (ℝ × ℝ) :=
  slice.filterMap (fun point =>
    match point.forecastHigh_mean, point.forecastHigh_upper,
        point.forecastHigh_lower, point.forecastLow_mean,
        point.forecastLow_upper, point.forecastLow_lower with
    | some hm, some hu, some hl, some lm, some lu, some ll =>
      let stdDevHigh := (hu - hl) / 3.92
      let probFillingBuy := normalCdf buyOffer hm stdDevHigh
      let stdDevLow := (lu - ll) / 3.92
      let probFillingSell := 1 - normalCdf sellOffer lm stdDevLow
      some (1 - probFillingBuy, 1 - probFillingSell)
    | _, _, _, _, _, _ => none)

/-- One loop iteration of `calculateFulfilmentProbability`: the buy and sell
fulfilment points for a single time horizon. -/
noncomputable def horizonPoint (buyOffer sellOffer : ℝ)
    (forecastData : List (PriceDataPoint ℝ)) (hours : ℕ) :
    FulfilmentDataPoint × FulfilmentDataPoint :=
  let forecastSlice := forecastData.take (hours * 12)
  if forecastSlice.length = 0 then (⟨hours, 0⟩, ⟨hours, 0⟩)
  else
    let factors := intervalFactors buyOffer sellOffer forecastSlice
    let totalProbNotFillingBuy := (factors.map (fun f => f.1)).prod
    let totalProbNotFillingSell := (factors.map (fun f => f.2)).prod
    (⟨hours, 1 - totalProbNotFillingBuy⟩, ⟨hours, 1 - totalProbNotFillingSell⟩)

/-- `calculateFulfilmentProbability` from `fulfilmentService.ts`: per-horizon
(1, 3, 6 hours) fill probabilities under the independent per-tick normal
model; `null` when the forecast series is empty. -/
noncomputable def calculateFulfilmentProbability (buyOffer sellOffer : ℝ)
    (forecastData : List (PriceDataPoint ℝ)) : Option FulfilmentAnalysis :=
  if forecastData.length = 0 then none
  else
    let h1 := horizonPoint buyOffer sellOffer forecastData 1
    let h3 := horizonPoint buyOffer sellOffer forecastData 3
    let h6 := horizonPoint buyOffer sellOffer forecastData 6
    some { buy := [h1.1, h3.1, h6.1], sell := [h1.2, h3.2, h6.2] }

end Fulfilment

section Forecast

/-- One training step of the damped-trend model: record the one-step-ahead
residual, then update level and trend (`forecastService.ts`, training
loop). -/
noncomputable def dtesStep (alpha beta phi : ℝ) (st : ℝ × ℝ × List ℝ)
    (value : ℝ) : ℝ × ℝ × List ℝ :=
  let lastLevel := st.1
  let trend := st.2.1
  let historicalForecast := lastLevel + phi * trend
  let residual := value - historicalForecast
  let level := alpha * value + (1 - alpha) * (lastLevel + phi * trend)
  let newTrend := beta * (level - lastLevel) + (1 - beta) * phi * trend
  (level, newTrend, st.2.2 ++ [residual])

/-- The trained state of the damped-trend model: final level, final trend,
and the residual list (seeded with a zero for the first point, exactly as
`const residuals = [0]` in the source). -/
noncomputable def dtesTrain (series : List ℝ) (alpha beta phi : ℝ) :
    ℝ × ℝ × List ℝ :=
  (series.drop 1).foldl (dtesStep alpha beta phi)
    (series.getD 0 0, series.getD 1 0 - series.getD 0 0, [0])

/-- The standard-deviation computation of `dampedTrendExponentialSmoothing`:
mean of the residual list, squared deviations, divisor `length − 1`, square
root. -/
noncomputable def sampleStdDev (residuals : List ℝ) : ℝ :=
  let meanResidual := residuals.sum / (residuals.length : ℝ)
  let squaredErrors := residuals.map (fun e => (e - meanResidual) ^ 2)
  Real.sqrt (squaredErrors.sum / ((residuals.length : ℝ) - 1))

/-- The three output sequences of the damped-trend model. -/
structure DtesResult where
  forecast : List ℝ
  upper : List ℝ
  lower : List ℝ

/-- The damped geometric trend multiplier `Σ_{j=1..i} phi^j`. -/
noncomputable def trendMultiplier (phi : ℝ) (i : ℕ) : ℝ :=
  ((List.range i).map (fun k => phi ^ (k + 1))).sum

/-- The mean forecast at 1-indexed step `i`. -/
noncomputable def dtesMean (level trend phi : ℝ) (i : ℕ) : ℝ :=
  level + trendMultiplier phi i * trend

/-- The confidence half-width `1.96 · stdDev · sqrt(i)` at 1-indexed step
`i`. -/
noncomputable def dtesErrorMargin (stdDev : ℝ) (i : ℕ) : ℝ :=
  1.96 * stdDev * Real.sqrt (i : ℝ)

/-- `dampedTrendExponentialSmoothing` from `forecastService.ts`: empty
output for series shorter than 2, otherwise mean forecast plus symmetric
confidence band per step. -/
noncomputable def dampedTrendExponentialSmoothing (series : List ℝ)
    (alpha beta phi : ℝ) (forecastLength : ℕ) : DtesResult :=
  if series.length < 2 then ⟨[], [], []⟩
  else
    let st := dtesTrain series alpha beta phi
    let stdDev := sampleStdDev st.2.2
    { forecast := (List.range forecastLength).map
        (fun j => dtesMean st.1 st.2.1 phi (j + 1))
      upper := (List.range forecastLength).map
        (fun j => dtesMean st.1 st.2.1 phi (j + 1) + dtesErrorMargin stdDev (j + 1))
      lower := (List.range forecastLength).map
        (fun j => dtesMean st.1 st.2.1 phi (j + 1) - dtesErrorMargin stdDev (j + 1)) }

/-- `extractSeries` from `generateForecast`: the values of one nullable field
across the history, keeping only positive numbers. -/
noncomputable def extractSeries (history : List (PriceDataPoint ℝ))
    (key : PriceDataPoint ℝ → Option ℝ) : List ℝ :=
  (history.filterMap key).filter (fun p => decide (0 < p))

/-- `generateForecast` from `forecastService.ts`: damped-trend forecasts of
the fair-price, high-price and low-price series (72 steps, alpha 0.8,
beta 0.05, phi 0.98), emitted as forecast ticks; empty when any series has
fewer than 12 valid observations. -/
noncomputable def generateForecast (history : List (PriceDataPoint ℝ)) :
    List (PriceDataPoint ℝ) :=
  let historicalFairPrices := extractSeries history (fun p => p.fairPrice)
  let historicalHighPrices := extractSeries history (fun p => p.avgHighPrice)
  let historicalLowPrices := extractSeries history (fun p => p.avgLowPrice)
  if historicalFairPrices.length < 12 ∨ historicalHighPrices.length < 12 ∨
      historicalLowPrices.length < 12 then []
  else
    let forecastPoints : ℕ := 72
    let alpha : ℝ := 0.8
    let beta : ℝ := 0.05
    let phi : ℝ := 0.98
    let fairPriceForecast :=
      dampedTrendExponentialSmoothing historicalFairPrices alpha beta phi
        forecastPoints
    let highPriceForecast :=
      dampedTrendExponentialSmoothing historicalHighPrices alpha beta phi
        forecastPoints
    let lowPriceForecast :=
      dampedTrendExponentialSmoothing historicalLowPrices alpha beta phi
        forecastPoints
    let lastTimestamp := ((history.getLast?).map (fun p => p.timestamp)).getD 0
    let interval : ℤ := 300
    (List.range fairPriceForecast.forecast.length).map (fun (i : ℕ) =>
      { timestamp := lastTimestamp + ((i : ℤ) + 1) * interval
        avgHighPrice := none
        avgLowPrice := none
        highPriceVolume := 0
        lowPriceVolume := 0
        fairPrice := none
        forecastPrice := some (max 0 (fairPriceForecast.forecast.getD i 0))
        forecastHigh := some (max 0 (fairPriceForecast.upper.getD i 0))
        forecastLow := some (max 0 (fairPriceForecast.lower.getD i 0))
        forecastHigh_mean := some (max 0 (highPriceForecast.forecast.getD i 0))
        forecastHigh_upper := some (max 0 (highPriceForecast.upper.getD i 0))
        forecastHigh_lower := some (max 0 (highPriceForecast.lower.getD i 0))
        forecastLow_mean := some (max 0 (lowPriceForecast.forecast.getD i 0))
        forecastLow_upper := some (max 0 (lowPriceForecast.upper.getD i 0))
        forecastLow_lower := some (max 0 (lowPriceForecast.lower.getD i 0)) })

/-- The pure composition performed by `fetchPriceHistory` in
`runescapeService.ts`: conditioned history followed by its forecast. -/
noncomputable def fetchPriceHistory (rawData : List (RawPriceDataPoint ℝ)) :
    List (PriceDataPoint ℝ) :=
  let processedHistory := processRawPriceData rawData
  let forecast := generateForecast processedHistory
  processedHistory ++ forecast

end Forecast

section Pricing

/-- The historical segment of the input: ticks without a forecast price
(`priceHistory.filter(p => p.forecastPrice == null)`). -/
def historicalData {α : Type} (priceHistory : List (PriceDataPoint α)) :
    List (PriceDataPoint α) :=
  priceHistory.filter (fun p => p.forecastPrice.isNone)

/-- The forecast segment of the input: ticks with a forecast price
(`priceHistory.filter(p => p.forecastPrice != null)`). -/
def forecastSegment {α : Type} (priceHistory : List (PriceDataPoint α)) :
    List (PriceDataPoint α) :=
  priceHistory.filter (fun p => p.forecastPrice.isSome)

/-- The trailing 36 historical ticks (`historicalData.slice(-36)`). -/
def recentHistoricalData {α : Type} (priceHistory : List (PriceDataPoint α)) :
    List (PriceDataPoint α) :=
  let h := historicalData priceHistory
  h.drop (h.length - 36)

/-- Total high-side volume over the trailing 3-hour window. -/
def totalRecentHighVolume {α : Type} (priceHistory : List (PriceDataPoint α)) :
    ℕ :=
  ((recentHistoricalData priceHistory).map (fun p => p.highPriceVolume)).sum

/-- Total low-side volume over the trailing 3-hour window. -/
def totalRecentLowVolume {α : Type} (priceHistory : List (PriceDataPoint α)) :
    ℕ :=
  ((recentHistoricalData priceHistory).map (fun p => p.lowPriceVolume)).sum

/-- The predicate of the `lastValidPoint` search: fair price and both
spreads non-null. -/
def validTriple {α : Type} (p : PriceDataPoint α) : Bool :=
  p.fairPrice.isSome && p.p90LowSpread.isSome && p.p90HighSpread.isSome

/-- The most recent historical point with fair price and both spreads
non-null (`[...priceHistory].reverse().find(...)`). -/
def lastValidPoint {α : Type} (priceHistory : List (PriceDataPoint α)) :
    Option (PriceDataPoint α) :=
  priceHistory.reverse.find? validTriple

/-- The shared profit/margin block of both pricing modes: set only when both
recommendations survive the liquidity gate and the buy price is positive. -/
def profitAndMargin (recommendedBuy recommendedSell : Option ℤ) :
    Option ℤ × Option String :=
  match recommendedBuy, recommendedSell with
  | some b, some s =>
    if 0 < b then
      let taxOnSale := calculateGETaxInt s
      let potentialProfit := s - b - taxOnSale
      (some potentialProfit,
        some (toFixed2 (((potentialProfit : ℚ) / (b : ℚ)) * 100) ++ "%"))
    else (none, none)
  | _, _ => (none, none)

/-- `calculateHistoricalOffers` from `analysisService.ts`: offers from the
most recent valid historical tick, liquidity-gated, with profit/margin. -/
def calculateHistoricalOffers {α : Type} [LinearOrderedField α] [FloorRing α]
    (priceHistory : List (PriceDataPoint α))
    (hasRecentBuySideActivity hasRecentSellSideActivity : Bool) :
    Option OfferPriceAnalysis :=
  match lastValidPoint priceHistory with
  | none => none
  | some p =>
    if truthy p.fairPrice ∧ truthy p.p90LowSpread ∧ truthy p.p90HighSpread
    then
      let fairPrice := p.fairPrice.getD 0
      let p90LowSpread := p.p90LowSpread.getD 0
      let p90HighSpread := p.p90HighSpread.getD 0
      let recommendedBuy : Option ℤ :=
        if hasRecentBuySideActivity then some (round (fairPrice - p90LowSpread))
        else none
      let recommendedSell : Option ℤ :=
        if hasRecentSellSideActivity
        then some (round (fairPrice + p90HighSpread))
        else none
      let pm := profitAndMargin recommendedBuy recommendedSell
      some
        { recommendedBuy := recommendedBuy
          recommendedSell := recommendedSell
          potentialProfit := pm.1
          potentialMargin := pm.2
          analysisMethod := AnalysisMethod.historical
          fulfilmentAnalysis := none }
    else none

end Pricing

/-- `calculateOfferPrices` from `analysisService.ts`: partition the input
into historical and forecast segments, apply the 3-hour liquidity gate, and
choose between the historical fallback and the hybrid forecast method
(volatility-scaled spreads, 25% of the 1-hour forecast trend, fulfilment
analysis when both offers exist). -/
noncomputable def calculateOfferPrices (priceHistory : List (PriceDataPoint ℝ)) :
    Option OfferPriceAnalysis :=
  let forecastData := forecastSegment priceHistory
  let histData := historicalData priceHistory
  if histData.length = 0 then none
  else
    let hasRecentSellSideActivity := 0 < totalRecentHighVolume priceHistory
    let hasRecentBuySideActivity := 0 < totalRecentLowVolume priceHistory
    if forecastData.length < 12 then
      calculateHistoricalOffers histData (decide hasRecentBuySideActivity)
        (decide hasRecentSellSideActivity)
    else
      match histData.getLast? with
      | none => none
      | some lastHistoricalPoint =>
        if truthy lastHistoricalPoint.fairPrice ∧
            truthy lastHistoricalPoint.p90LowSpread ∧
            truthy lastHistoricalPoint.p90HighSpread then
          let fairPrice := lastHistoricalPoint.fairPrice.getD 0
          let p90LowSpread := lastHistoricalPoint.p90LowSpread.getD 0
          let p90HighSpread := lastHistoricalPoint.p90HighSpread.getD 0
          let lastForecast := forecastData.getLast?.getD dfltPoint
          let forecastIntervalWidth :=
            lastForecast.forecastHigh.getD 0 - lastForecast.forecastLow.getD 0
          let historicalMargin := p90LowSpread + p90HighSpread
          let volatilityFactor :=
            if 0 < historicalMargin then forecastIntervalWidth / historicalMargin
            else 1
          let clampedVolatilityFactor := max 0.75 (min 1.5 volatilityFactor)
          let riskAdjustedLowSpread := p90LowSpread * clampedVolatilityFactor
          let riskAdjustedHighSpread := p90HighSpread * clampedVolatilityFactor
          let oneHourForecastIndex := min 11 (forecastData.length - 1)
          let forecastTrendDelta :=
            (forecastData.getD oneHourForecastIndex dfltPoint).forecastPrice.getD 0
              - fairPrice
          let trendInfluenceFactor : ℝ := 0.25
          let trendAdjustment := forecastTrendDelta * trendInfluenceFactor
          let baseBuy := fairPrice - riskAdjustedLowSpread
          let baseSell := fairPrice + riskAdjustedHighSpread
          let recommendedBuy : Option ℤ :=
            if hasRecentBuySideActivity
            then some (round (baseBuy + trendAdjustment)) else none
          let recommendedSell : Option ℤ :=
            if hasRecentSellSideActivity
            then some (round (baseSell + trendAdjustment)) else none
          let pm := profitAndMargin recommendedBuy recommendedSell
          let fulfilmentAnalysis :=
            match recommendedBuy, recommendedSell with
            | some b, some s =>
              calculateFulfilmentProbability (b : ℝ) (s : ℝ) forecastData
            | _, _ => none
          some
            { recommendedBuy := recommendedBuy
              recommendedSell := recommendedSell
              potentialProfit := pm.1
              potentialMargin := pm.2
              analysisMethod := AnalysisMethod.hybridForecast
              fulfilmentAnalysis := fulfilmentAnalysis }
        else
          calculateHistoricalOffers histData (decide hasRecentBuySideActivity)
            (decide hasRecentSellSideActivity)

section Helpers

/-- `getD` of a mapped range evaluates the function at in-range indices. -/
theorem getD_range_map {β : Type _} (n : ℕ) (f : ℕ → β) (i : ℕ) (d : β)
    (h : i < n) : ((List.range n).map f).getD i d = f i := by
  rw [List.getD_eq_getElem?_getD, List.getElem?_map, List.getElem?_range h]
  rfl

/-- Reading every index of a list through `getD` is the list itself. -/
theorem map_range_getD {β γ : Type _} (l : List β) (g : β → γ) (d : β) :
    (List.range l.length).map (fun i => g (l.getD i d)) = l.map g := by
  induction l with
  | nil => rfl
  | cons a t ih =>
    rw [List.length_cons, List.range_succ_eq_map, List.map_cons, List.map_map]
    simp only [List.getD_cons_zero, Function.comp_def, List.getD_cons_succ]
    rw [ih, List.map_cons]

end Helpers

section ClaimC3

/-- If the gate booleans are off, a non-null historical analysis has the
corresponding recommendation suppressed. -/
theorem calculateHistoricalOffers_gates {α : Type} [LinearOrderedField α]
    [FloorRing α] (h : List (PriceDataPoint α)) (hb hs : Bool)
    (a : OfferPriceAnalysis)
    (hsome : calculateHistoricalOffers h hb hs = some a) :
    (hb = false → a.recommendedBuy = none) ∧
      (hs = false → a.recommendedSell = none) := by
  unfold calculateHistoricalOffers at hsome
  split at hsome
  · exact absurd hsome (by simp)
  · split at hsome
    · injection hsome with hsome
      subst hsome
      constructor
      · intro hb0; subst hb0; simp
      · intro hs0; subst hs0; simp
    · exact absurd hsome (by simp)

/-- Claim C3: in both pricing modes, zero trailing low-side volume forces a
null buy recommendation, and zero trailing high-side volume forces a null
sell recommendation, in any non-null analysis. -/
theorem c3_liquidity_gating (l : List (PriceDataPoint ℝ))
    (a : OfferPriceAnalysis) (hsome : calculateOfferPrices l = some a) :
    (totalRecentLowVolume l = 0 → a.recommendedBuy = none) ∧
      (totalRecentHighVolume l = 0 → a.recommendedSell = none) := by
  unfold calculateOfferPrices at hsome
  dsimp only [] at hsome
  split at hsome
  · exact absurd hsome (by simp)
  · split at hsome
    · have := calculateHistoricalOffers_gates _ _ _ _ hsome
      constructor
      · intro h0; exact this.1 (by simp [h0])
      · intro h0; exact this.2 (by simp [h0])
    · split at hsome
      · exact absurd hsome (by simp)
      · split at hsome
        · injection hsome with hsome
          subst hsome
          constructor
          · intro h0; simp [h0]
          · intro h0; simp [h0]
        · have := calculateHistoricalOffers_gates _ _ _ _ hsome
          constructor
          · intro h0; exact this.1 (by simp [h0])
          · intro h0; exact this.2 (by simp [h0])

end ClaimC3

section ClaimC2

/-- A truthy optional value is in particular non-null. -/
theorem truthy_isSome {α : Type} [Zero α] [DecidableEq α] {o : Option α}
    (h : truthy o) : o.isSome := by
  cases o with
  | none => exact absurd h (by simp [truthy])
  | some v => rfl

/-- The most recent tick of a list with `fairPrice`, `p90LowSpread` and
`p90HighSpread` all non-null either does not exist or carries a zero among
those values. -/
def noValidHistoricalIn {α : Type} [Zero α] [DecidableEq α]
    (h : List (PriceDataPoint α)) : Prop :=
  match lastValidPoint h with
  | none => True
  | some p => ¬(truthy p.fairPrice ∧ truthy p.p90LowSpread ∧
      truthy p.p90HighSpread)

/-- The historical fallback returns null exactly when the most recent
historical tick with all three pricing fields non-null is missing or carries
a zero value. -/
theorem calculateHistoricalOffers_eq_none_iff {α : Type}
    [LinearOrderedField α] [FloorRing α] (h : List (PriceDataPoint α))
    (hb hs : Bool) :
    calculateHistoricalOffers h hb hs = none ↔ noValidHistoricalIn h := by
  unfold noValidHistoricalIn
  unfold calculateHistoricalOffers
  cases hfind : lastValidPoint h with
  | none => simp
  | some p =>
    by_cases htr :
        truthy p.fairPrice ∧ truthy p.p90LowSpread ∧ truthy p.p90HighSpread
    · simp [htr]
    · simp [htr]

/-- There is no actionable historical tick: the most recent historical tick
whose `fairPrice`, `p90LowSpread` and `p90HighSpread` are all non-null either
does not exist or has one of those values equal to zero. -/
def noActionableHistoricalTick (l : List (PriceDataPoint ℝ)) : Prop :=
  noValidHistoricalIn (historicalData l)

/-- Claim C2, amended: `calculateOfferPrices` returns null iff there is no
actionable historical tick (not merely iff there is no historical tick at
all). -/
theorem c2_null_iff_no_actionable_historical_tick
    (l : List (PriceDataPoint ℝ)) :
    calculateOfferPrices l = none ↔ noActionableHistoricalTick l := by
  unfold calculateOfferPrices noActionableHistoricalTick noValidHistoricalIn
  dsimp only []
  by_cases hlen : (historicalData l).length = 0
  · rw [if_pos hlen]
    have hnil : historicalData l = [] := List.length_eq_zero.mp hlen
    simp [lastValidPoint, hnil]
  · rw [if_neg hlen]
    by_cases hfc : (forecastSegment l).length < 12
    · rw [if_pos hfc]
      have := @calculateHistoricalOffers_eq_none_iff ℝ _ _ (historicalData l)
        (decide (0 < totalRecentLowVolume l))
        (decide (0 < totalRecentHighVolume l))
      unfold noValidHistoricalIn at this
      exact this
    · rw [if_neg hfc]
      cases hlast : (historicalData l).getLast? with
      | none =>
        exact absurd (List.getLast?_eq_none_iff.mp hlast)
          (fun hnil => hlen (by simp [hnil]))
      | some q =>
        dsimp only []
        by_cases htr :
            truthy q.fairPrice ∧ truthy q.p90LowSpread ∧ truthy q.p90HighSpread
        · rw [if_pos htr]
          have hrev : (historicalData l).reverse.head? = some q := by
            rw [List.head?_reverse]; exact hlast
          obtain ⟨t, ht⟩ := List.head?_eq_some_iff.mp hrev
          have hfind : lastValidPoint (historicalData l) = some q := by
            unfold lastValidPoint
            rw [ht]
            exact List.find?_cons_of_pos _ (by
              simp only [validTriple, Bool.and_eq_true]
              exact ⟨⟨truthy_isSome htr.1, truthy_isSome htr.2.1⟩,
                truthy_isSome htr.2.2⟩)
          rw [hfind]
          simp [htr]
        · rw [if_neg htr]
          have := @calculateHistoricalOffers_eq_none_iff ℝ _ _ (historicalData l)
            (decide (0 < totalRecentLowVolume l))
            (decide (0 < totalRecentHighVolume l))
          unfold noValidHistoricalIn at this
          exact this

end ClaimC2

section ClaimC1

/-- When both recommendations are present and the buy price is positive, the
profit/margin block returns exactly the after-tax difference and its
formatted percentage — with no clamping of negative values. -/
theorem profitAndMargin_spec (ob os : Option ℤ) (b s : ℤ) (hb : ob = some b)
    (hs : os = some s) (hpos : 0 < b) :
    profitAndMargin ob os =
      (some (s - b - calculateGETaxInt s),
        some (toFixed2 ((((s - b - calculateGETaxInt s : ℤ) : ℚ) / (b : ℚ))
          * 100) ++ "%")) := by
  subst hb; subst hs
  unfold profitAndMargin
  dsimp only []
  rw [if_pos hpos]

/-- The historical mode surfaces the raw after-tax profit and its formatted
margin whenever both offers exist and the buy price is positive. -/
theorem calculateHistoricalOffers_profit {α : Type} [LinearOrderedField α]
    [FloorRing α] (h : List (PriceDataPoint α)) (gb gs : Bool)
    (a : OfferPriceAnalysis) (b s : ℤ)
    (hsome : calculateHistoricalOffers h gb gs = some a)
    (hb : a.recommendedBuy = some b) (hs : a.recommendedSell = some s)
    (hpos : 0 < b) :
    a.potentialProfit = some (s - b - calculateGETaxInt s) ∧
      a.potentialMargin =
        some (toFixed2 ((((s - b - calculateGETaxInt s : ℤ) : ℚ) / (b : ℚ))
          * 100) ++ "%") := by
  unfold calculateHistoricalOffers at hsome
  split at hsome
  · exact absurd hsome (by simp)
  · split at hsome
    · injection hsome with hsome
      subst hsome
      simp only [] at hb hs
      rw [profitAndMargin_spec _ _ _ _ hb hs hpos]
      exact ⟨rfl, rfl⟩
    · exact absurd hsome (by simp)

/-- Claim C1, amended: whenever `calculateOfferPrices` returns an analysis
with both recommendations non-null and a positive buy price, the reported
profit is exactly `sell − buy − tax(sell)` — negative values included — and
the margin is its formatted percentage.  No reset to 0/"0.00%" occurs. -/
theorem c1_profit_surfaced (l : List (PriceDataPoint ℝ))
    (a : OfferPriceAnalysis) (b s : ℤ)
    (hsome : calculateOfferPrices l = some a)
    (hb : a.recommendedBuy = some b) (hs : a.recommendedSell = some s)
    (hpos : 0 < b) :
    a.potentialProfit = some (s - b - calculateGETaxInt s) ∧
      a.potentialMargin =
        some (toFixed2 ((((s - b - calculateGETaxInt s : ℤ) : ℚ) / (b : ℚ))
          * 100) ++ "%") := by
  unfold calculateOfferPrices at hsome
  dsimp only [] at hsome
  split at hsome
  · exact absurd hsome (by simp)
  · split at hsome
    · exact calculateHistoricalOffers_profit _ _ _ _ _ _ hsome hb hs hpos
    · split at hsome
      · exact absurd hsome (by simp)
      · split at hsome
        · injection hsome with hsome
          subst hsome
          simp only [] at hb hs
          rw [profitAndMargin_spec _ _ _ _ hb hs hpos]
          exact ⟨rfl, rfl⟩
        · exact calculateHistoricalOffers_profit _ _ _ _ _ _ hsome hb hs hpos

/-- A single historical tick on which the pricing strategy recommends
buy 999 / sell 1001: the trade loses 18 after tax. -/
def c1Tick : PriceDataPoint ℝ :=
  { timestamp := 0, highPriceVolume := 1, lowPriceVolume := 1,
    fairPrice := some 1000, p90LowSpread := some 1, p90HighSpread := some 1 }

/-- The analysis the code produces on `[c1Tick]`. -/
def c1Result : OfferPriceAnalysis :=
  { recommendedBuy := some 999, recommendedSell := some 1001,
    potentialProfit := some (-18), potentialMargin := some "-1.80%",
    analysisMethod := AnalysisMethod.historical,
    fulfilmentAnalysis := none }

/-- Evaluation of the pricing strategy on the loss-making single-tick
history. -/
theorem c1_eval : calculateOfferPrices [c1Tick] = some c1Result := by
  have hh : historicalData [c1Tick] = [c1Tick] := rfl
  have hf : forecastSegment [c1Tick] = [] := rfl
  have hlv : totalRecentLowVolume [c1Tick] = 1 := rfl
  have hhv : totalRecentHighVolume [c1Tick] = 1 := rfl
  have hfind : lastValidPoint [c1Tick] = some c1Tick := rfl
  have hb : round ((1000 : ℝ) - 1) = 999 := by norm_num [round_eq]
  have hs : round ((1000 : ℝ) + 1) = 1001 := by norm_num [round_eq]
  have hpm : profitAndMargin (some 999) (some 1001) =
      (some (-18), some "-1.80%") := by
    unfold profitAndMargin
    dsimp only []
    rw [if_pos (by norm_num : (0:ℤ) < 999)]
    have htax : calculateGETaxInt 1001 = 20 := by
      unfold calculateGETaxInt
      norm_num
    rw [htax]
    norm_num
    rw [toFixed2]
    rw [if_pos (by norm_num)]
    have hr : round ((-(-(200/111 : ℚ))) * 100) = 180 := by
      rw [round_eq]; norm_num
    rw [hr]
    decide
  unfold calculateOfferPrices
  dsimp only []
  rw [hh, hf, hlv, hhv]
  norm_num
  unfold calculateHistoricalOffers
  rw [hfind]
  dsimp only []
  rw [if_pos (by norm_num [c1Tick, truthy] :
    truthy c1Tick.fairPrice ∧ truthy c1Tick.p90LowSpread ∧
      truthy c1Tick.p90HighSpread)]
  dsimp only [c1Tick]
  simp only [Option.getD_some, if_true]
  rw [hb, hs, hpm]
  rfl

/-- Claim C1 as stated is false: on `[c1Tick]` both recommendations are
non-null, the buy price is positive and `sell − buy − tax(sell) ≤ 0`, yet
the analysis reports profit −18 and margin "-1.80%", not 0 and "0.00%". -/
theorem c1_counterexample :
    calculateOfferPrices [c1Tick] = some c1Result ∧
      c1Result.recommendedBuy = some 999 ∧
      c1Result.recommendedSell = some 1001 ∧ (0 : ℤ) < 999 ∧
      1001 - 999 - calculateGETaxInt 1001 ≤ 0 ∧
      c1Result.potentialProfit ≠ some 0 ∧
      c1Result.potentialMargin ≠ some "0.00%" := by
  refine ⟨c1_eval, rfl, rfl, by norm_num, ?_, by decide, by decide⟩
  have htax : calculateGETaxInt 1001 = 20 := by
    unfold calculateGETaxInt
    norm_num
  rw [htax]
  norm_num

/-- Witness for the amended claim C1 at the concrete loss-making input. -/
theorem c1_profit_surfaced_witness :
    c1Result.potentialProfit =
        some (1001 - 999 - calculateGETaxInt 1001) ∧
      c1Result.potentialMargin =
        some (toFixed2
          ((((1001 - 999 - calculateGETaxInt 1001 : ℤ) : ℚ) / ((999 : ℤ) : ℚ))
            * 100) ++ "%") :=
  c1_profit_surfaced [c1Tick] c1Result 999 1001 c1_eval rfl rfl
    (by norm_num)

end ClaimC1

section ClaimC2CE

/-- A historical tick with no derived pricing fields. -/
def c2Tick : PriceDataPoint ℝ := { timestamp := 0 }

/-- Claim C2 as stated is false: `[c2Tick]` contains a historical tick (its
`forecastPrice` is null), yet `calculateOfferPrices` returns null because no
tick carries the derived pricing fields. -/
theorem c2_counterexample :
    historicalData [c2Tick] = [c2Tick] ∧
      calculateOfferPrices [c2Tick] = none := by
  refine ⟨rfl, ?_⟩
  unfold calculateOfferPrices
  dsimp only []
  rw [show historicalData [c2Tick] = [c2Tick] from rfl,
    show forecastSegment [c2Tick] = [] from rfl]
  norm_num
  unfold calculateHistoricalOffers
  rw [show lastValidPoint [c2Tick] = none from rfl]

end ClaimC2CE

section ClaimC3W

/-- A valid historical tick with zero volume on both sides. -/
def c3Tick : PriceDataPoint ℝ :=
  { timestamp := 0, fairPrice := some 1000, p90LowSpread := some 1,
    p90HighSpread := some 1 }

/-- The analysis produced on `[c3Tick]`: both offers suppressed by the
liquidity gate. -/
def c3Result : OfferPriceAnalysis :=
  { recommendedBuy := none, recommendedSell := none, potentialProfit := none,
    potentialMargin := none, analysisMethod := AnalysisMethod.historical,
    fulfilmentAnalysis := none }

/-- Evaluation of the pricing strategy on the zero-volume history. -/
theorem c3_eval : calculateOfferPrices [c3Tick] = some c3Result := by
  unfold calculateOfferPrices
  dsimp only []
  rw [show historicalData [c3Tick] = [c3Tick] from rfl,
    show forecastSegment [c3Tick] = [] from rfl,
    show totalRecentLowVolume [c3Tick] = 0 from rfl,
    show totalRecentHighVolume [c3Tick] = 0 from rfl]
  norm_num
  unfold calculateHistoricalOffers
  rw [show lastValidPoint [c3Tick] = some c3Tick from rfl]
  dsimp only []
  rw [if_pos (by norm_num [c3Tick, truthy] :
    truthy c3Tick.fairPrice ∧ truthy c3Tick.p90LowSpread ∧
      truthy c3Tick.p90HighSpread)]
  rfl

/-- Witness for claim C3 at a concrete zero-volume input. -/
theorem c3_liquidity_gating_witness :
    totalRecentLowVolume [c3Tick] = 0 ∧ totalRecentHighVolume [c3Tick] = 0 ∧
      c3Result.recommendedBuy = none ∧ c3Result.recommendedSell = none :=
  ⟨rfl, rfl, (c3_liquidity_gating [c3Tick] c3Result c3_eval).1 rfl,
    (c3_liquidity_gating [c3Tick] c3Result c3_eval).2 rfl⟩

end ClaimC3W

section ClaimC10

/-- An optional value that is either null or strictly positive. -/
def nullOrPos {α : Type} [Zero α] [PartialOrder α] (o : Option α) : Prop :=
  ∀ v, o = some v → 0 < v

/-- Every tick produced by the margin stage has its four derived fields null
or strictly positive, and two non-null spreads have a positive sum. -/
theorem marginTick_fields {α : Type} [LinearOrderedField α] [FloorRing α]
    (arr : List (PriceDataPoint α)) (i : ℕ) :
    nullOrPos (marginTick arr i).maxRealisticMargin ∧
      nullOrPos (marginTick arr i).maxRealisticMarginAfterTax ∧
      nullOrPos (marginTick arr i).p90LowSpread ∧
      nullOrPos (marginTick arr i).p90HighSpread ∧
      (∀ x y, (marginTick arr i).p90LowSpread = some x →
        (marginTick arr i).p90HighSpread = some y → 0 < x + y) := by
  unfold marginTick
  dsimp only []
  split
  · exact ⟨fun v hv => by simp at hv, fun v hv => by simp at hv,
      fun v hv => by simp at hv, fun v hv => by simp at hv,
      fun x y hx hy => by simp at hx⟩
  · split
    · exact ⟨fun v hv => by simp at hv, fun v hv => by simp at hv,
        fun v hv => by simp at hv, fun v hv => by simp at hv,
        fun x y hx hy => by simp at hx⟩
    · refine ⟨?_, ?_, ?_, ?_, ?_⟩
      · intro v hv
        simp only [] at hv
        split at hv
        · injection hv with hv; subst hv; assumption
        · exact absurd hv (by simp)
      · intro v hv
        simp only [] at hv
        split at hv
        · split at hv
          · injection hv with hv; subst hv; assumption
          · exact absurd hv (by simp)
        · exact absurd hv (by simp)
      · intro v hv
        simp only [] at hv
        split at hv
        · injection hv with hv; subst hv; assumption
        · exact absurd hv (by simp)
      · intro v hv
        simp only [] at hv
        split at hv
        · injection hv with hv; subst hv; assumption
        · exact absurd hv (by simp)
      · intro x y hx hy
        simp only [] at hx hy
        split at hx
        · split at hy
          · rename_i hx0 hy0
            injection hx with hx
            injection hy with hy
            rw [← hx, ← hy]
            linarith
          · exact absurd hy (by simp)
        · exact absurd hx (by simp)

/-- Claim C10: every tick emitted by the data conditioner has
`maxRealisticMargin`, `maxRealisticMarginAfterTax`, `p90LowSpread` and
`p90HighSpread` each null or strictly positive, and whenever both spreads
are non-null their sum is positive. -/
theorem c10_derived_fields_null_or_positive {α : Type} [LinearOrderedField α]
    [FloorRing α] (rawData : List (RawPriceDataPoint α)) :
    (processRawPriceData rawData).Forall (fun t =>
      nullOrPos t.maxRealisticMargin ∧ nullOrPos t.maxRealisticMarginAfterTax ∧
        nullOrPos t.p90LowSpread ∧ nullOrPos t.p90HighSpread ∧
        (∀ x y, t.p90LowSpread = some x → t.p90HighSpread = some y →
          0 < x + y)) := by
  unfold processRawPriceData
  dsimp only []
  split
  · exact trivial
  · split
    · exact trivial
    · rw [List.forall_iff_forall_mem]
      intro x hx
      rw [List.mem_map] at hx
      obtain ⟨i, _, hx⟩ := hx
      subst hx
      exact marginTick_fields _ i

end ClaimC10

section ClaimC9

/-- The margin stage never touches the forecast fields. -/
theorem marginTick_forecastPrice {α : Type} [LinearOrderedField α]
    [FloorRing α] (arr : List (PriceDataPoint α)) (i : ℕ) :
    (marginTick arr i).forecastPrice = (arr.getD i dfltPoint).forecastPrice := by
  unfold marginTick
  dsimp only []
  split
  · rfl
  · split
    · rfl
    · rfl

/-- Reading any index of the fair-price stage yields a tick with null
`forecastPrice`. -/
theorem stage2_getD_forecastPrice_none {α : Type} [LinearOrderedField α]
    [FloorRing α] (l : List (RawPriceDataPoint α × Option α)) (j : ℕ) :
    (((List.range l.length).map (fun k =>
      stage2Tick (l.getD k (dfltRaw, none)).1 (fairPriceAt l k))).getD j
        dfltPoint).forecastPrice = none := by
  by_cases hj : j < l.length
  · rw [getD_range_map _ _ _ _ hj]
    rfl
  · rw [List.getD_eq_default _ _ (by
      rw [List.length_map, List.length_range]
      exact le_of_not_lt hj)]
    rfl

/-- Every tick emitted by the data conditioner has a null `forecastPrice`. -/
theorem processRawPriceData_forecastPrice_none {α : Type}
    [LinearOrderedField α] [FloorRing α]
    (rawData : List (RawPriceDataPoint α)) :
    (processRawPriceData rawData).Forall (fun t => t.forecastPrice = none) := by
  unfold processRawPriceData
  dsimp only []
  split
  · exact trivial
  · split
    · exact trivial
    · rw [List.forall_iff_forall_mem]
      intro x hx
      rw [List.mem_map] at hx
      obtain ⟨i, _, hx⟩ := hx
      subst hx
      rw [marginTick_forecastPrice]
      exact stage2_getD_forecastPrice_none _ _

/-- Every tick emitted by the forecast generator has a non-null
`forecastPrice`. -/
theorem generateForecast_forecastPrice_some
    (history : List (PriceDataPoint ℝ)) :
    (generateForecast history).Forall (fun t => t.forecastPrice ≠ none) := by
  unfold generateForecast
  dsimp only []
  split
  · exact trivial
  · rw [List.forall_iff_forall_mem]
    intro x hx
    rw [List.mem_map] at hx
    obtain ⟨i, _, hx⟩ := hx
    subst hx
    simp

/-- Claim C9: conditioned ticks carry no forecast price, forecast ticks
always do, and the partition performed inside `calculateOfferPrices`
recovers exactly the two segments of the concatenation built by
`fetchPriceHistory`. -/
theorem c9_partition_recovers_segments
    (rawData : List (RawPriceDataPoint ℝ)) :
    (processRawPriceData rawData).Forall (fun t => t.forecastPrice = none) ∧
      (generateForecast (processRawPriceData rawData)).Forall
        (fun t => t.forecastPrice ≠ none) ∧
      historicalData (fetchPriceHistory rawData) =
        processRawPriceData rawData ∧
      forecastSegment (fetchPriceHistory rawData) =
        generateForecast (processRawPriceData rawData) := by
  have h1 := @processRawPriceData_forecastPrice_none ℝ _ _ rawData
  have h2 := generateForecast_forecastPrice_some (processRawPriceData rawData)
  rw [List.forall_iff_forall_mem] at h1 h2
  refine ⟨(List.forall_iff_forall_mem).mpr h1,
    (List.forall_iff_forall_mem).mpr h2, ?_, ?_⟩
  · unfold fetchPriceHistory historicalData
    dsimp only []
    rw [List.filter_append]
    rw [List.filter_eq_self.mpr (fun a ha => by simp [h1 a ha])]
    rw [List.filter_eq_nil_iff.mpr (fun a ha => by
      simp only [Option.isNone_iff_eq_none]
      exact h2 a ha)]
    rw [List.append_nil]
  · unfold fetchPriceHistory forecastSegment
    dsimp only []
    rw [List.filter_append]
    rw [List.filter_eq_nil_iff.mpr (fun a ha => by simp [h1 a ha])]
    rw [List.filter_eq_self.mpr (fun a ha => by
      simp only [Option.isSome_iff_ne_none]
      exact h2 a ha)]
    rw [List.nil_append]

end ClaimC9

section ClaimC8

variable {α : Type} [LinearOrderedField α] [FloorRing α]

/-- A successful map lookup returns a tick carrying the looked-up
timestamp. -/
theorem rawDataMapGet_timestamp {m : List (RawPriceDataPoint α)} {ts : ℤ}
    {p : RawPriceDataPoint α} (h : rawDataMapGet m ts = some p) :
    p.timestamp = ts := by
  unfold rawDataMapGet at h
  have := List.find?_some h
  simpa using this

/-- A successful map lookup returns an element of the underlying list. -/
theorem rawDataMapGet_mem {m : List (RawPriceDataPoint α)} {ts : ℤ}
    {p : RawPriceDataPoint α} (h : rawDataMapGet m ts = some p) : p ∈ m := by
  unfold rawDataMapGet at h
  exact List.mem_reverse.mp (List.mem_of_find?_eq_some h)

/-- Unfolding of `regularize` on a non-empty grid. -/
theorem regularize_cons (m : List (RawPriceDataPoint α)) (ts : ℤ)
    (rest : List ℤ) (lastKnown : Option (RawPriceDataPoint α)) :
    regularize m (ts :: rest) lastKnown =
      match rawDataMapGet m ts with
      | some p => p :: regularize m rest (some p)
      | none =>
        match lastKnown with
        | some q =>
            { q with timestamp := ts, highPriceVolume := 0, lowPriceVolume := 0 }
              :: regularize m rest (some q)
        | none => regularize m rest none := rfl

/-- Once a tick has been observed, the regularisation loop emits exactly one
tick per grid timestamp, carrying those timestamps in order. -/
theorem regularize_timestamps_some (m : List (RawPriceDataPoint α)) :
    ∀ (g : List ℤ) (q : RawPriceDataPoint α),
      (regularize m g (some q)).map (fun t => t.timestamp) = g := by
  intro g
  induction g with
  | nil => intro q; rfl
  | cons ts rest ih =>
    intro q
    rw [regularize_cons]
    cases hget : rawDataMapGet m ts with
    | some p =>
      simp only [List.map_cons, ih p, rawDataMapGet_timestamp hget]
    | none =>
      simp only [List.map_cons, ih q]

/-- If the first grid timestamp is present in the map, the regularisation
output carries exactly the grid timestamps. -/
theorem regularize_timestamps (m : List (RawPriceDataPoint α)) (ts0 : ℤ)
    (g : List ℤ) (p0 : RawPriceDataPoint α)
    (h0 : rawDataMapGet m ts0 = some p0) :
    (regularize m (ts0 :: g) none).map (fun t => t.timestamp) = ts0 :: g := by
  rw [regularize_cons, h0]
  simp only [List.map_cons, regularize_timestamps_some m g p0,
    rawDataMapGet_timestamp h0]

/-- The grid timestamps advance by exactly 300 seconds. -/
theorem gridTimestamps_chain (minTs maxTs : ℤ) :
    List.Chain' (fun a b => b = a + 300) (gridTimestamps minTs maxTs) := by
  unfold gridTimestamps
  split
  · exact List.chain'_nil
  · rw [List.chain'_map]
    rw [show (maxTs - minTs).toNat / 300 + 1 =
      Nat.succ ((maxTs - minTs).toNat / 300) from rfl]
    rw [List.chain'_range_succ]
    intro m _
    push_cast
    ring

/-- The grid starting at `minTs` (when non-empty) has head `minTs`. -/
theorem gridTimestamps_head (minTs maxTs : ℤ) (h : minTs ≤ maxTs) :
    ∃ g, gridTimestamps minTs maxTs = minTs :: g := by
  unfold gridTimestamps
  rw [if_neg (not_lt.mpr h)]
  rw [List.range_succ_eq_map, List.map_cons]
  refine ⟨(List.range ((maxTs - minTs).toNat / 300)).map
    (fun (i : ℕ) => minTs + 300 * ((Nat.succ i : ℕ) : ℤ)), ?_⟩
  rw [List.map_map]
  have h0 : minTs + 300 * ((0 : ℕ) : ℤ) = minTs := by push_cast; ring
  rw [h0]
  rfl

/-- The margin stage never changes a tick's timestamp. -/
theorem marginTick_timestamp (arr : List (PriceDataPoint α)) (i : ℕ) :
    (marginTick arr i).timestamp = (arr.getD i dfltPoint).timestamp := by
  unfold marginTick
  dsimp only []
  split
  · rfl
  · split
    · rfl
    · rfl

/-- The timestamps of the conditioned output are exactly the grid
timestamps. -/
theorem regularized_stages_timestamps
    (reg : List (RawPriceDataPoint α)) :
    (((List.range ((List.range (reg.map
        (fun p => (p, computeVwap p))).length).map (fun k =>
          stage2Tick ((reg.map (fun p => (p, computeVwap p))).getD k
            (dfltRaw, none)).1
            (fairPriceAt (reg.map (fun p => (p, computeVwap p))) k))).length).map
      (fun i => marginTick ((List.range (reg.map
        (fun p => (p, computeVwap p))).length).map (fun k =>
          stage2Tick ((reg.map (fun p => (p, computeVwap p))).getD k
            (dfltRaw, none)).1
            (fairPriceAt (reg.map (fun p => (p, computeVwap p))) k))) i)).map
      (fun t => t.timestamp)) = reg.map (fun t => t.timestamp) := by
  rw [List.map_map]
  have hstep1 :
      ((fun t : PriceDataPoint α => t.timestamp) ∘
        (fun i => marginTick ((List.range (reg.map
          (fun p => (p, computeVwap p))).length).map (fun k =>
            stage2Tick ((reg.map (fun p => (p, computeVwap p))).getD k
              (dfltRaw, none)).1
              (fairPriceAt (reg.map (fun p => (p, computeVwap p))) k))) i)) =
      (fun i => (((List.range (reg.map
          (fun p => (p, computeVwap p))).length).map (fun k =>
            stage2Tick ((reg.map (fun p => (p, computeVwap p))).getD k
              (dfltRaw, none)).1
              (fairPriceAt (reg.map (fun p => (p, computeVwap p))) k))).getD i
                dfltPoint).timestamp) := by
    funext i
    exact marginTick_timestamp _ i
  rw [hstep1, map_range_getD]
  rw [List.map_map]
  have hstep2 :
      ((fun t : PriceDataPoint α => t.timestamp) ∘ (fun k =>
        stage2Tick ((reg.map (fun p => (p, computeVwap p))).getD k
          (dfltRaw, none)).1
          (fairPriceAt (reg.map (fun p => (p, computeVwap p))) k))) =
      (fun k => (fun (q : RawPriceDataPoint α × Option α) => q.1.timestamp)
        ((reg.map (fun p => (p, computeVwap p))).getD k (dfltRaw, none))) := by
    funext k
    rfl
  rw [hstep2, map_range_getD (reg.map (fun p => (p, computeVwap p)))
    (fun (q : RawPriceDataPoint α × Option α) => q.1.timestamp)
    (dfltRaw, none), List.map_map]
  rfl

/-- Claim C8, first conjunct: the conditioned output's timestamps form a
strictly increasing arithmetic sequence with step 300 seconds. -/
theorem processRawPriceData_timestamps_chain
    (rawData : List (RawPriceDataPoint α)) :
    List.Chain' (fun a b => b.timestamp = a.timestamp + 300)
      (processRawPriceData rawData) := by
  unfold processRawPriceData
  dsimp only []
  split
  · exact List.chain'_nil
  · split
    · exact List.chain'_nil
    · refine (@List.chain'_map ℤ (PriceDataPoint α)
        (fun x y => y = x + 300) (fun t => t.timestamp) _).mp ?_
      rw [regularized_stages_timestamps]
      have hfil :
          (rawData.filter (fun p => decide
            ((rawData.getLast?.map (fun p => p.timestamp)).getD 0 - 2592000 ≤
              p.timestamp))) ≠ [] := by
        intro hnil
        rename_i hlen
        rw [hnil] at hlen
        exact hlen (by simp)
      set F := rawData.filter (fun p => decide
        ((rawData.getLast?.map (fun p => p.timestamp)).getD 0 - 2592000 ≤
          p.timestamp)) with hF
      by_cases hcmp : ((F.getLast?.map (fun p => p.timestamp)).getD 0) <
          ((F.head?.map (fun p => p.timestamp)).getD 0)
      · rw [show gridTimestamps ((F.head?.map (fun p => p.timestamp)).getD 0)
            ((F.getLast?.map (fun p => p.timestamp)).getD 0) = ([] : List ℤ)
          from by unfold gridTimestamps; rw [if_pos hcmp]]
        exact List.chain'_nil
      · obtain ⟨g, hg⟩ := gridTimestamps_head
          ((F.head?.map (fun p => p.timestamp)).getD 0)
          ((F.getLast?.map (fun p => p.timestamp)).getD 0) (not_lt.mp hcmp)
        obtain ⟨h0, t0, ht0⟩ := List.exists_cons_of_ne_nil hfil
        have hhead : (F.head?.map (fun p => p.timestamp)).getD 0 =
            h0.timestamp := by rw [ht0]; rfl
        have hlook : (rawDataMapGet F
            ((F.head?.map (fun p => p.timestamp)).getD 0)).isSome := by
          unfold rawDataMapGet
          rw [List.find?_isSome]
          exact ⟨h0, List.mem_reverse.mpr (by rw [ht0]; exact List.mem_cons_self _ _),
            by rw [hhead]; simp⟩
        obtain ⟨p0, hp0⟩ := Option.isSome_iff_exists.mp hlook
        rw [hg, regularize_timestamps F _ g p0 hp0, ← hg]
        exact gridTimestamps_chain _ _

/-- A raw tick whose high and low averages are both present. -/
def pricedRaw {α : Type} (r : RawPriceDataPoint α) : Prop :=
  r.avgHighPrice ≠ none ∧ r.avgLowPrice ≠ none

/-- The regularisation loop only emits observed ticks or copies of observed
ticks, so when every observed tick is priced, so is every emitted tick. -/
theorem regularize_priced (m : List (RawPriceDataPoint α))
    (hm : ∀ r ∈ m, pricedRaw r) :
    ∀ (g : List ℤ) (lastKnown : Option (RawPriceDataPoint α)),
      (∀ q, lastKnown = some q → pricedRaw q) →
      ∀ t ∈ regularize m g lastKnown, pricedRaw t := by
  intro g
  induction g with
  | nil =>
    intro lk _ t ht
    rw [show regularize m [] lk = [] from rfl] at ht
    exact absurd ht (List.not_mem_nil t)
  | cons ts rest ih =>
    intro lk hlk t ht
    rw [regularize_cons] at ht
    cases hget : rawDataMapGet m ts with
    | some p =>
      rw [hget] at ht
      rcases List.mem_cons.mp ht with h | h
      · subst h; exact hm t (rawDataMapGet_mem hget)
      · exact ih (some p)
          (fun q hq => by
            injection hq with hq
            subst hq
            exact hm p (rawDataMapGet_mem hget)) t h
    | none =>
      rw [hget] at ht
      cases lk with
      | none => exact ih none (by simp) t ht
      | some q =>
        rcases List.mem_cons.mp ht with h | h
        · subst h
          exact hlk q rfl
        · exact ih (some q) (fun q2 hq2 => by
            injection hq2 with hq2
            subst hq2
            exact hlk _ rfl) t h

/-- The margin stage never changes a tick's high/low averages. -/
theorem marginTick_avg (arr : List (PriceDataPoint α)) (i : ℕ) :
    (marginTick arr i).avgHighPrice = (arr.getD i dfltPoint).avgHighPrice ∧
      (marginTick arr i).avgLowPrice = (arr.getD i dfltPoint).avgLowPrice := by
  unfold marginTick
  dsimp only []
  split
  · exact ⟨rfl, rfl⟩
  · split
    · exact ⟨rfl, rfl⟩
    · exact ⟨rfl, rfl⟩

/-- Claim C8, amended second conjunct: when every raw tick carries both
price sides, so does every conditioned tick (forward-fill copies the last
observed tick's prices verbatim). -/
theorem processRawPriceData_priced (rawData : List (RawPriceDataPoint α))
    (hr : ∀ r ∈ rawData, pricedRaw r) :
    (processRawPriceData rawData).Forall
      (fun t => t.avgHighPrice ≠ none ∧ t.avgLowPrice ≠ none) := by
  unfold processRawPriceData
  dsimp only []
  split
  · exact trivial
  · split
    · exact trivial
    · rw [List.forall_iff_forall_mem]
      set F := rawData.filter (fun p => decide
        ((rawData.getLast?.map (fun p => p.timestamp)).getD 0 - 2592000 ≤
          p.timestamp)) with hF
      set G := gridTimestamps ((F.head?.map (fun p => p.timestamp)).getD 0)
        ((F.getLast?.map (fun p => p.timestamp)).getD 0) with hG
      set R := regularize F G none with hR
      set V := R.map (fun p => (p, computeVwap p)) with hV
      set arr := (List.range V.length).map (fun k =>
        stage2Tick (V.getD k (dfltRaw, none)).1 (fairPriceAt V k)) with harr
      intro x hx
      rw [List.mem_map] at hx
      obtain ⟨i, hi, hx⟩ := hx
      subst hx
      rw [List.mem_range] at hi
      obtain ⟨hA, hL⟩ := marginTick_avg arr i
      rw [hA, hL]
      have hiv : i < V.length := by
        rw [harr] at hi
        simpa using hi
      rw [harr, getD_range_map _ _ _ _ hiv]
      have hir : i < R.length := by
        have h2 := hiv
        rw [hV] at h2
        simpa using h2
      have hVi : (V.getD i (dfltRaw, none)).1 = R.getD i dfltRaw := by
        rw [List.getD_eq_getElem _ _ hiv, List.getD_eq_getElem _ _ hir]
        simp only [hV, List.getElem_map]
      have hFm : ∀ r ∈ F, pricedRaw r := by
        intro r hrm
        rw [hF] at hrm
        exact hr r (List.mem_of_mem_filter hrm)
      have hp : ∀ t ∈ R, pricedRaw t := by
        rw [hR]
        exact regularize_priced F hFm G none (by simp)
      have hmem : R.getD i dfltRaw ∈ R := by
        rw [List.getD_eq_getElem _ _ hir]
        exact List.getElem_mem _
      have := hp _ hmem
      rw [show (stage2Tick (V.getD i (dfltRaw, none)).1
          (fairPriceAt V i)).avgHighPrice =
        (V.getD i (dfltRaw, none)).1.avgHighPrice from rfl]
      rw [show (stage2Tick (V.getD i (dfltRaw, none)).1
          (fairPriceAt V i)).avgLowPrice =
        (V.getD i (dfltRaw, none)).1.avgLowPrice from rfl]
      rw [hVi]
      exact this

/-- Claim C8, amended: output timestamps form a strictly increasing
arithmetic sequence with step 300 seconds; and when every raw tick carries
both price sides, so does every output tick.  (In general an observed raw
tick with a null price propagates that null into the output.) -/
theorem c8_timestamps_and_forward_fill (rawData : List (RawPriceDataPoint α)) :
    List.Chain' (fun a b => b.timestamp = a.timestamp + 300)
      (processRawPriceData rawData) ∧
      ((∀ r ∈ rawData, pricedRaw r) →
        (processRawPriceData rawData).Forall
          (fun t => t.avgHighPrice ≠ none ∧ t.avgLowPrice ≠ none)) :=
  ⟨processRawPriceData_timestamps_chain rawData,
    processRawPriceData_priced rawData⟩


end ClaimC8

section ClaimC8Concrete

/-- Two raw ticks: a fully priced one followed by an observed tick with
null prices on both sides (a realistic empty 5-minute bucket). -/
def c8Raw : List (RawPriceDataPoint ℚ) :=
  [{ timestamp := 0, avgHighPrice := some 100, avgLowPrice := some 90,
     highPriceVolume := 1, lowPriceVolume := 1 },
   { timestamp := 300, avgHighPrice := none, avgLowPrice := none,
     highPriceVolume := 0, lowPriceVolume := 0 }]

/-- Claim C8 as stated is false: the first output tick carries a valid
high/low pair, yet the tick after it has null `avgHighPrice` and
`avgLowPrice` (the null-priced observed tick passes through; forward-fill
only fills missing grid points). -/
theorem c8_counterexample :
    ((processRawPriceData c8Raw).getD 0 dfltPoint).avgHighPrice = some 100 ∧
      ((processRawPriceData c8Raw).getD 0 dfltPoint).avgLowPrice = some 90 ∧
      ((processRawPriceData c8Raw).getD 1 dfltPoint).avgHighPrice = none ∧
      ((processRawPriceData c8Raw).getD 1 dfltPoint).avgLowPrice = none := by
  refine ⟨rfl, rfl, rfl, rfl⟩

/-- Two fully priced raw ticks for the witness. -/
def c8wRaw : List (RawPriceDataPoint ℚ) :=
  [{ timestamp := 0, avgHighPrice := some 100, avgLowPrice := some 90,
     highPriceVolume := 1, lowPriceVolume := 1 },
   { timestamp := 300, avgHighPrice := some 101, avgLowPrice := some 91,
     highPriceVolume := 2, lowPriceVolume := 2 }]

/-- Witness for the amended claim C8 at a concrete two-tick input. -/
theorem c8_timestamps_and_forward_fill_witness :
    List.Chain' (fun a b => b.timestamp = a.timestamp + 300)
      (processRawPriceData c8wRaw) ∧
      (processRawPriceData c8wRaw).Forall
        (fun t => t.avgHighPrice ≠ none ∧ t.avgLowPrice ≠ none) :=
  ⟨(c8_timestamps_and_forward_fill c8wRaw).1,
    (c8_timestamps_and_forward_fill c8wRaw).2 (by
      intro r hr
      rcases List.mem_cons.mp hr with h | h
      · subst h; exact ⟨by simp, by simp⟩
      · rcases List.mem_cons.mp h with h2 | h2
        · subst h2; exact ⟨by simp, by simp⟩
        · exact absurd h2 (List.not_mem_nil r))⟩

end ClaimC8Concrete

section ClaimC7

variable {α : Type} [LinearOrderedField α] [FloorRing α]

/-- `filterMap` only depends on the function's values on the list. -/
theorem filterMap_congr_mem {β γ : Type _} (f g : β → Option γ) :
    ∀ {l : List β}, (∀ x ∈ l, f x = g x) → l.filterMap f = l.filterMap g := by
  intro l
  induction l with
  | nil => intro _; rfl
  | cons a t ih =>
    intro h
    rw [List.filterMap_cons, List.filterMap_cons, h a (List.mem_cons_self a t),
      ih (fun x hx => h x (List.mem_cons_of_mem a hx))]

/-- The margin stage never changes a tick's fair price. -/
theorem marginTick_fair (arr : List (PriceDataPoint α)) (i : ℕ) :
    (marginTick arr i).fairPrice = (arr.getD i dfltPoint).fairPrice := by
  unfold marginTick
  dsimp only []
  split
  · rfl
  · split
    · rfl
    · rfl

/-- The nearest-rank 90th percentile as worded in the specification: the
element at index `⌊0.9·(n−1)⌋` of the ascending sort. -/
def nearestRank90 (values : List α) : α :=
  (values.mergeSort (fun a b => decide (a ≤ b))).getD
    (9 * (values.length - 1) / 10) 0

/-- The `Math.floor`-based index of `percentile` at `p = 90` is the
natural-number nearest-rank index. -/
theorem percentile90_index (n : ℕ) (hn : 1 ≤ n) :
    ((⌊(90 : α) / 100 * ((n : α) - 1)⌋).toNat) = 9 * (n - 1) / 10 := by
  have hcast : ((n : α) - 1) = ((n - 1 : ℕ) : α) := by
    rw [Nat.cast_sub hn]
    norm_num
  rw [hcast]
  have h1 : (90 : α) / 100 * ((n - 1 : ℕ) : α) =
      ((9 * (n - 1) : ℕ) : α) / 10 := by
    push_cast
    ring
  rw [h1]
  have h2 : ⌊((9 * (n - 1) : ℕ) : α) / 10⌋ = ((9 * (n - 1) / 10 : ℕ) : ℤ) := by
    rw [Int.floor_eq_iff]
    constructor
    · rw [le_div_iff (by norm_num : (0 : α) < 10)]
      have hle : (9 * (n - 1) / 10) * 10 ≤ 9 * (n - 1) := Nat.div_mul_le_self _ _
      exact_mod_cast hle
    · rw [div_lt_iff (by norm_num : (0 : α) < 10)]
      have hmod := Nat.div_add_mod (9 * (n - 1)) 10
      have hlt : 9 * (n - 1) < (9 * (n - 1) / 10 + 1) * 10 := by omega
      have hcast2 : (((9 * (n - 1) / 10 + 1) * 10 : ℕ) : α) =
          ((((9 * (n - 1) / 10 : ℕ) : ℤ) : α) + 1) * 10 := by
        norm_cast
      rw [← hcast2]
      exact_mod_cast hlt
  rw [h2]
  exact Int.toNat_natCast _

/-- On a non-empty list the code's `percentile` at 90 is exactly the
specification's nearest-rank value. -/
theorem percentile_eq_nearestRank90 (values : List α) (h : 1 ≤ values.length) :
    percentile values 90 = some (nearestRank90 values) := by
  unfold percentile nearestRank90
  rw [if_neg (by omega)]
  dsimp only []
  rw [List.length_mergeSort]
  rw [percentile90_index values.length h]

/-- The trailing 36-tick window ending at index `i`. -/
def windowAt (out : List (PriceDataPoint α)) (i : ℕ) :
    List (PriceDataPoint α) :=
  (out.drop (i - 35)).take 36

/-- The low-side diffs of a window taken over the final output coincide
with those taken over the pre-margin stage. -/
theorem lowDiffsOf_window_out (arr : List (PriceDataPoint α)) (i : ℕ) :
    lowDiffsOf (windowAt ((List.range arr.length).map
        (fun k => marginTick arr k)) i) =
      lowDiffsOf (windowAt arr i) := by
  have harr : (List.range arr.length).map (fun k => arr.getD k dfltPoint)
      = arr := by
    have := map_range_getD arr (fun t => t) dfltPoint
    simpa using this
  unfold windowAt
  conv_rhs => rw [← harr]
  rw [← List.map_drop, ← List.map_take, ← List.map_drop, ← List.map_take]
  unfold lowDiffsOf
  rw [List.filterMap_map, List.filterMap_map]
  refine filterMap_congr_mem _ _ (fun k _ => ?_)
  simp only [Function.comp_apply]
  rw [marginTick_fair arr k, (marginTick_avg arr k).2]

/-- The high-side diffs of a window taken over the final output coincide
with those taken over the pre-margin stage. -/
theorem highDiffsOf_window_out (arr : List (PriceDataPoint α)) (i : ℕ) :
    highDiffsOf (windowAt ((List.range arr.length).map
        (fun k => marginTick arr k)) i) =
      highDiffsOf (windowAt arr i) := by
  have harr : (List.range arr.length).map (fun k => arr.getD k dfltPoint)
      = arr := by
    have := map_range_getD arr (fun t => t) dfltPoint
    simpa using this
  unfold windowAt
  conv_rhs => rw [← harr]
  rw [← List.map_drop, ← List.map_take, ← List.map_drop, ← List.map_take]
  unfold highDiffsOf
  rw [List.filterMap_map, List.filterMap_map]
  refine filterMap_congr_mem _ _ (fun k _ => ?_)
  simp only [Function.comp_apply]
  rw [marginTick_fair arr k, (marginTick_avg arr k).1]

/-- Claim C7, amended: at indices ≥ 35 the emitted `p90LowSpread` and
`p90HighSpread` are the nearest-rank 90th percentiles of the trailing
36-tick window's qualifying (truthy fair price and truthy side price)
absolute spreads when positive, null when the percentile is not positive,
and both null when either side has fewer than 5 qualifying samples. -/
theorem c7_p90_window_characterisation
    (rawData : List (RawPriceDataPoint α)) (i : ℕ) (h35 : 35 ≤ i)
    (hi : i < (processRawPriceData rawData).length) :
    ((lowDiffsOf (windowAt (processRawPriceData rawData) i)).length < 5 ∨
        (highDiffsOf (windowAt (processRawPriceData rawData) i)).length < 5 →
      ((processRawPriceData rawData).getD i dfltPoint).p90LowSpread = none ∧
        ((processRawPriceData rawData).getD i dfltPoint).p90HighSpread =
          none) ∧
      (5 ≤ (lowDiffsOf (windowAt (processRawPriceData rawData) i)).length →
        5 ≤ (highDiffsOf (windowAt (processRawPriceData rawData) i)).length →
        ((processRawPriceData rawData).getD i dfltPoint).p90LowSpread =
          (if 0 < nearestRank90
              (lowDiffsOf (windowAt (processRawPriceData rawData) i))
            then some (nearestRank90
              (lowDiffsOf (windowAt (processRawPriceData rawData) i)))
            else none) ∧
        ((processRawPriceData rawData).getD i dfltPoint).p90HighSpread =
          (if 0 < nearestRank90
              (highDiffsOf (windowAt (processRawPriceData rawData) i))
            then some (nearestRank90
              (highDiffsOf (windowAt (processRawPriceData rawData) i)))
            else none)) := by
  revert hi
  unfold processRawPriceData
  dsimp only []
  split
  · intro hi
    exact absurd hi (by simp)
  · split
    · intro hi
      exact absurd hi (by simp)
    · intro hi
      rw [List.length_map, List.length_range] at hi
      have hgd : ∀ (arr : List (PriceDataPoint α)) (hia : i < arr.length),
          ((List.range arr.length).map (fun k => marginTick arr k)).getD i
            dfltPoint = marginTick arr i :=
        fun arr hia => getD_range_map _ _ _ _ hia
      rw [hgd _ (by simpa using hi)]
      rw [lowDiffsOf_window_out, highDiffsOf_window_out]
      unfold windowAt
      unfold marginTick
      dsimp only []
      rw [if_neg (by omega : ¬ i < 35)]
      constructor
      · intro hcond
        rw [if_pos hcond]
        exact ⟨rfl, rfl⟩
      · intro hlo hhi2
        rw [if_neg (by
          push_neg
          exact ⟨by omega, by omega⟩)]
        rw [percentile_eq_nearestRank90 _ (le_trans (by norm_num) hlo),
          percentile_eq_nearestRank90 _ (le_trans (by norm_num) hhi2)]
        exact ⟨rfl, rfl⟩


end ClaimC7

section ClaimC7Concrete

/-- 36 observed raw ticks, 5 minutes apart, constant price 100 on both
sides with unit volumes. -/
def c7Raw : List (RawPriceDataPoint ℚ) :=
  (List.range 36).map (fun (i : ℕ) =>
    { timestamp := 300 * (i : ℤ), avgHighPrice := some 100,
      avgLowPrice := some 100, highPriceVolume := 1, lowPriceVolume := 1 })

/-- The VWAP stage of the conditioner on `c7Raw`. -/
def c7V : List (RawPriceDataPoint ℚ × Option ℚ) :=
  c7Raw.map (fun p => (p, computeVwap p))

/-- The fair-price stage of the conditioner on `c7Raw`. -/
def c7Arr : List (PriceDataPoint ℚ) :=
  (List.range c7V.length).map (fun k =>
    stage2Tick (c7V.getD k (dfltRaw, none)).1 (fairPriceAt c7V k))

/-- The conditioner on `c7Raw` is the margin stage over `c7Arr`. -/
theorem c7_out : processRawPriceData c7Raw =
    (List.range c7Arr.length).map (fun k => marginTick c7Arr k) := by rfl

/-- A `filterMap` that always hits is the constant map. -/
theorem filterMap_eq_map_const {β γ : Type _} {f : β → Option γ} {c : γ} :
    ∀ {l : List β}, (∀ x ∈ l, f x = some c) →
      l.filterMap f = l.map (fun _ => c) := by
  intro l
  induction l with
  | nil => intro _; rfl
  | cons a t ih =>
    intro h
    rw [List.filterMap_cons, h a (List.mem_cons_self a t), List.map_cons,
      ih (fun x hx => h x (List.mem_cons_of_mem a hx))]

/-- Every VWAP in `c7V` is 100. -/
theorem c7_vwap : ∀ q ∈ c7V, q.2 = some (100 : ℚ) := by
  intro q hq
  unfold c7V at hq
  rw [List.mem_map] at hq
  obtain ⟨p, hp, rfl⟩ := hq
  unfold c7Raw at hp
  rw [List.mem_map] at hp
  obtain ⟨i, _, rfl⟩ := hp
  unfold computeVwap
  norm_num

/-- Length of the VWAP stage. -/
theorem c7V_len : c7V.length = 36 := by rfl

/-- Length of the fair-price stage. -/
theorem c7Arr_len : c7Arr.length = 36 := by rfl

/-- The fair price of `c7Arr` at indices 23–35 is 100. -/
theorem c7_fair (k : ℕ) (h23 : 23 ≤ k) (h35 : k ≤ 35) :
    fairPriceAt c7V k = some 100 := by
  unfold fairPriceAt
  rw [if_neg (by omega)]
  dsimp only []
  have hwin : ∀ q ∈ (c7V.drop (k - 23)).take 24, q.2 = some (100 : ℚ) :=
    fun q hq => c7_vwap q (List.mem_of_mem_drop (List.mem_of_mem_take hq))
  rw [filterMap_eq_map_const hwin]
  have hlenw : ((c7V.drop (k - 23)).take 24).length = 24 := by
    rw [List.length_take, List.length_drop, c7V_len]
    omega
  rw [List.length_map, hlenw]
  rw [if_pos (by norm_num)]
  rw [show ((fun (_ : RawPriceDataPoint ℚ × Option ℚ) => (100 : ℚ))) =
    Function.const _ (100 : ℚ) from rfl, List.map_const, hlenw,
    List.sum_replicate]
  norm_num

/-- The high/low averages read by the margin stage are all 100. -/
theorem c7_avg (k : ℕ) (hk : k < 36) :
    (c7V.getD k (dfltRaw, none)).1.avgLowPrice = some 100 ∧
      (c7V.getD k (dfltRaw, none)).1.avgHighPrice = some 100 := by
  have hk2 : k < c7V.length := by rw [c7V_len]; exact hk
  rw [List.getD_eq_getElem _ _ hk2]
  unfold c7V c7Raw
  simp only [List.getElem_map, List.getElem_range]
  simp

/-- The low-side diffs of the pre-margin stage: one zero per index ≥ 23. -/
theorem c7_lowDiffs : lowDiffsOf c7Arr = List.replicate 13 (0 : ℚ) := by
  unfold c7Arr lowDiffsOf
  rw [List.filterMap_map]
  rw [filterMap_congr_mem _
    (fun k => if 23 ≤ k then some (0 : ℚ) else none) ?_]
  · rfl
  · intro k hk
    rw [List.mem_range, c7V_len] at hk
    simp only [Function.comp_apply]
    by_cases h23 : 23 ≤ k
    · rw [if_pos h23]
      have hf := c7_fair k h23 (by omega)
      have ha := (c7_avg k hk).1
      rw [show (stage2Tick (c7V.getD k (dfltRaw, none)).1
          (fairPriceAt c7V k)).fairPrice = fairPriceAt c7V k from rfl,
        show (stage2Tick (c7V.getD k (dfltRaw, none)).1
          (fairPriceAt c7V k)).avgLowPrice =
            (c7V.getD k (dfltRaw, none)).1.avgLowPrice from rfl,
        hf, ha]
      rw [if_pos (by constructor <;> · show (100:ℚ) ≠ 0; norm_num)]
      norm_num
    · rw [if_neg h23]
      have hf : fairPriceAt c7V k = none := by
        unfold fairPriceAt
        rw [if_pos (by omega)]
      rw [show (stage2Tick (c7V.getD k (dfltRaw, none)).1
          (fairPriceAt c7V k)).fairPrice = fairPriceAt c7V k from rfl, hf]
      rw [if_neg (by intro hcon; exact hcon.1)]

/-- The high-side diffs of the pre-margin stage: one zero per index ≥ 23. -/
theorem c7_highDiffs : highDiffsOf c7Arr = List.replicate 13 (0 : ℚ) := by
  unfold c7Arr highDiffsOf
  rw [List.filterMap_map]
  rw [filterMap_congr_mem _
    (fun k => if 23 ≤ k then some (0 : ℚ) else none) ?_]
  · rfl
  · intro k hk
    rw [List.mem_range, c7V_len] at hk
    simp only [Function.comp_apply]
    by_cases h23 : 23 ≤ k
    · rw [if_pos h23]
      have hf := c7_fair k h23 (by omega)
      have ha := (c7_avg k hk).2
      rw [show (stage2Tick (c7V.getD k (dfltRaw, none)).1
          (fairPriceAt c7V k)).fairPrice = fairPriceAt c7V k from rfl,
        show (stage2Tick (c7V.getD k (dfltRaw, none)).1
          (fairPriceAt c7V k)).avgHighPrice =
            (c7V.getD k (dfltRaw, none)).1.avgHighPrice from rfl,
        hf, ha]
      rw [if_pos (by constructor <;> · show (100:ℚ) ≠ 0; norm_num)]
      norm_num
    · rw [if_neg h23]
      have hf : fairPriceAt c7V k = none := by
        unfold fairPriceAt
        rw [if_pos (by omega)]
      rw [show (stage2Tick (c7V.getD k (dfltRaw, none)).1
          (fairPriceAt c7V k)).fairPrice = fairPriceAt c7V k from rfl, hf]
      rw [if_neg (by intro hcon; exact hcon.1)]

end ClaimC7Concrete

section ClaimC7Final

/-- The nearest-rank percentile of thirteen zeros is zero (computed, per the
code, as `some 0`, not `null`). -/
theorem c7_percentile : percentile (List.replicate 13 (0 : ℚ)) 90 = some 0 := by
  rw [percentile_eq_nearestRank90 _ (by simp)]
  congr 1
  unfold nearestRank90
  have hall : ∀ x ∈ (List.replicate 13 (0 : ℚ)).mergeSort
      (fun a b => decide (a ≤ b)), x = 0 :=
    fun x hx => List.eq_of_mem_replicate
      ((List.mergeSort_perm _ _).mem_iff.mp hx)
  have hlen : ((List.replicate 13 (0 : ℚ)).mergeSort
      (fun a b => decide (a ≤ b))).length = 13 := by
    rw [List.length_mergeSort, List.length_replicate]
  rw [show (9 * ((List.replicate 13 (0 : ℚ)).length - 1) / 10) = 10 by simp]
  rw [List.getD_eq_getElem _ _ (by rw [hlen]; norm_num)]
  exact hall _ (List.getElem_mem _)

/-- The low-side window diffs of the conditioned output at index 35. -/
theorem c7_window_low :
    lowDiffsOf (windowAt (processRawPriceData c7Raw) 35) =
      List.replicate 13 (0 : ℚ) := by
  rw [c7_out, lowDiffsOf_window_out c7Arr 35]
  unfold windowAt
  rw [show (35 - 35 : ℕ) = 0 from rfl, List.drop_zero]
  rw [show (36 : ℕ) = c7Arr.length from c7Arr_len.symm, List.take_length]
  exact c7_lowDiffs

/-- The high-side window diffs of the conditioned output at index 35. -/
theorem c7_window_high :
    highDiffsOf (windowAt (processRawPriceData c7Raw) 35) =
      List.replicate 13 (0 : ℚ) := by
  rw [c7_out, highDiffsOf_window_out c7Arr 35]
  unfold windowAt
  rw [show (35 - 35 : ℕ) = 0 from rfl, List.drop_zero]
  rw [show (36 : ℕ) = c7Arr.length from c7Arr_len.symm, List.take_length]
  exact c7_highDiffs

/-- The emitted margin fields at index 35 of the conditioned `c7Raw`. -/
theorem c7_tick35 :
    ((processRawPriceData c7Raw).getD 35 dfltPoint).p90LowSpread = none ∧
      ((processRawPriceData c7Raw).getD 35 dfltPoint).p90HighSpread = none := by
  rw [c7_out]
  rw [getD_range_map _ _ _ _ (by rw [c7Arr_len]; norm_num)]
  unfold marginTick
  dsimp only []
  rw [if_neg (by norm_num : ¬ (35 : ℕ) < 35)]
  rw [show (35 - 35 : ℕ) = 0 from rfl, List.drop_zero]
  rw [show (36 : ℕ) = c7Arr.length from c7Arr_len.symm, List.take_length]
  rw [c7_lowDiffs, c7_highDiffs]
  rw [if_neg (by norm_num)]
  rw [c7_percentile]
  simp only [Option.getD_some]
  exact ⟨rfl, rfl⟩

/-- Claim C7 as stated is false: at index 35 of the conditioned `c7Raw`
there are 13 ≥ 5 qualifying samples on each side and the nearest-rank 90th
percentile is `some 0`, yet the emitted `p90LowSpread` and `p90HighSpread`
are null (a non-positive percentile is nulled, and null is not only emitted
for fewer than 5 samples). -/
theorem c7_counterexample :
    5 ≤ (lowDiffsOf (windowAt (processRawPriceData c7Raw) 35)).length ∧
      5 ≤ (highDiffsOf (windowAt (processRawPriceData c7Raw) 35)).length ∧
      percentile (lowDiffsOf (windowAt (processRawPriceData c7Raw) 35)) 90 =
        some 0 ∧
      ((processRawPriceData c7Raw).getD 35 dfltPoint).p90LowSpread = none ∧
      ((processRawPriceData c7Raw).getD 35 dfltPoint).p90HighSpread =
        none := by
  refine ⟨?_, ?_, ?_, c7_tick35.1, c7_tick35.2⟩
  · rw [c7_window_low]; simp
  · rw [c7_window_high]; simp
  · rw [c7_window_low]; exact c7_percentile

/-- Witness for the amended claim C7 at the concrete input and index 35. -/
theorem c7_p90_window_characterisation_witness :
    ((lowDiffsOf (windowAt (processRawPriceData c7Raw) 35)).length < 5 ∨
        (highDiffsOf (windowAt (processRawPriceData c7Raw) 35)).length < 5 →
      ((processRawPriceData c7Raw).getD 35 dfltPoint).p90LowSpread = none ∧
        ((processRawPriceData c7Raw).getD 35 dfltPoint).p90HighSpread =
          none) ∧
      (5 ≤ (lowDiffsOf (windowAt (processRawPriceData c7Raw) 35)).length →
        5 ≤ (highDiffsOf (windowAt (processRawPriceData c7Raw) 35)).length →
        ((processRawPriceData c7Raw).getD 35 dfltPoint).p90LowSpread =
          (if 0 < nearestRank90
              (lowDiffsOf (windowAt (processRawPriceData c7Raw) 35))
            then some (nearestRank90
              (lowDiffsOf (windowAt (processRawPriceData c7Raw) 35)))
            else none) ∧
        ((processRawPriceData c7Raw).getD 35 dfltPoint).p90HighSpread =
          (if 0 < nearestRank90
              (highDiffsOf (windowAt (processRawPriceData c7Raw) 35))
            then some (nearestRank90
              (highDiffsOf (windowAt (processRawPriceData c7Raw) 35)))
            else none)) :=
  c7_p90_window_characterisation c7Raw 35 (by norm_num)
    (by rw [c7_out]; rw [List.length_map, List.length_range, c7Arr_len]
        norm_num)

end ClaimC7Final

section ClaimC4

/-- Core bound for the Abramowitz–Stegun kernel: with `t ∈ (0,1]` and an
exponential factor `e ∈ (0,1]`, the quantity `1 − P(t)·e` (with `P` the
Horner quintic of the source) lies in `[0,1]`. -/
lemma erfCore_mem (t e : ℝ) (ht0 : 0 < t) (ht1 : t ≤ 1) (he0 : 0 < e)
    (he1 : e ≤ 1) :
    0 ≤ 1 - ((((1.061405429 * t + -1.453152027) * t + 1.421413741) * t +
        -0.284496736) * t + 0.254829592) * t * e ∧
      1 - ((((1.061405429 * t + -1.453152027) * t + 1.421413741) * t +
        -0.284496736) * t + 0.254829592) * t * e ≤ 1 := by
  have hS0 : (0:ℝ) ≤ (((1.061405429 * t + -1.453152027) * t + 1.421413741) *
      t + -0.284496736) * t + 0.254829592 := by
    nlinarith [sq_nonneg (t * t - 0.6845 * t), sq_nonneg (t - 0.154), ht0.le,
      ht1, mul_nonneg (mul_nonneg (sub_nonneg.mpr ht1) ht0.le) ht0.le,
      mul_nonneg (sub_nonneg.mpr ht1) ht0.le]
  have hP : ((((1.061405429 * t + -1.453152027) * t + 1.421413741) * t +
      -0.284496736) * t + 0.254829592) * t ≤ 1 := by
    nlinarith [sub_nonneg.mpr ht1,
      mul_nonneg (sub_nonneg.mpr ht1) ht0.le,
      mul_nonneg (mul_nonneg (sub_nonneg.mpr ht1) ht0.le) ht0.le,
      mul_nonneg (mul_nonneg (mul_nonneg (mul_nonneg (sub_nonneg.mpr ht1)
        ht0.le) ht0.le) ht0.le) ht0.le,
      sq_nonneg ((1 - t) * t), ht0.le]
  have hprod0 : 0 ≤ ((((1.061405429 * t + -1.453152027) * t + 1.421413741) *
      t + -0.284496736) * t + 0.254829592) * t * e :=
    mul_nonneg (mul_nonneg hS0 ht0.le) he0.le
  have hprod1 : ((((1.061405429 * t + -1.453152027) * t + 1.421413741) * t +
      -0.284496736) * t + 0.254829592) * t * e ≤ 1 := by
    calc ((((1.061405429 * t + -1.453152027) * t + 1.421413741) * t +
          -0.284496736) * t + 0.254829592) * t * e ≤
        ((((1.061405429 * t + -1.453152027) * t + 1.421413741) * t +
          -0.284496736) * t + 0.254829592) * t * 1 :=
      mul_le_mul_of_nonneg_left he1 (mul_nonneg hS0 ht0.le)
    _ ≤ 1 := by rw [mul_one]; exact hP
  exact ⟨by linarith, by linarith⟩

/-- The implemented error function takes values in `[-1, 1]`. -/
lemma erf_mem (x : ℝ) : -1 ≤ erf x ∧ erf x ≤ 1 := by
  unfold erf
  dsimp only []
  have hax : (0:ℝ) ≤ |x| := abs_nonneg x
  have hden : (0:ℝ) < 1 + 0.3275911 * |x| := by nlinarith
  have hcore := erfCore_mem (1 / (1 + 0.3275911 * |x|))
    (Real.exp (-|x| * |x|)) (by positivity)
    (by rw [div_le_one hden]; nlinarith) (Real.exp_pos _)
    (by calc Real.exp (-|x| * |x|) ≤ Real.exp 0 :=
          Real.exp_le_exp.mpr (by nlinarith)
        _ = 1 := Real.exp_zero)
  rcases le_or_lt 0 x with hx | hx
  · rw [if_pos hx]
    constructor <;> nlinarith [hcore.1, hcore.2]
  · rw [if_neg (not_le.mpr hx)]
    constructor <;> nlinarith [hcore.1, hcore.2]

/-- The implemented normal CDF takes values in `[0, 1]`. -/
lemma normalCdf_mem (x mean stdDev : ℝ) :
    0 ≤ normalCdf x mean stdDev ∧ normalCdf x mean stdDev ≤ 1 := by
  unfold normalCdf
  split
  · split <;> norm_num
  · have h := erf_mem ((x - mean) / (stdDev * Real.sqrt 2))
    constructor <;> nlinarith [h.1, h.2]

/-- `1 − p ∈ [0,1]` whenever `p ∈ [0,1]`. -/
lemma one_sub_cdf_mem (p : ℝ) (h0 : 0 ≤ p) (h1 : p ≤ 1) :
    0 ≤ 1 - p ∧ 1 - p ≤ 1 := ⟨by linarith, by linarith⟩

/-- Every survival factor produced by `intervalFactors` has both components
in `[0, 1]`. -/
lemma intervalFactors_mem (b s : ℝ) (slice : List (PriceDataPoint ℝ)) :
    ∀ f ∈ intervalFactors b s slice,
      (0 ≤ f.1 ∧ f.1 ≤ 1) ∧ (0 ≤ f.2 ∧ f.2 ≤ 1) := by
  intro f hf
  unfold intervalFactors at hf
  rw [List.mem_filterMap] at hf
  obtain ⟨pt, _, hpt⟩ := hf
  split at hpt
  · dsimp only [] at hpt
    injection hpt with hpt
    subst hpt
    dsimp only []
    exact ⟨one_sub_cdf_mem _ (normalCdf_mem _ _ _).1 (normalCdf_mem _ _ _).2,
      one_sub_cdf_mem _
        (one_sub_cdf_mem _ (normalCdf_mem _ _ _).1 (normalCdf_mem _ _ _).2).1
        (one_sub_cdf_mem _ (normalCdf_mem _ _ _).1
          (normalCdf_mem _ _ _).2).2⟩
  · simp at hpt

/-- A list of values in `[0, 1]` has a product in `[0, 1]`. -/
lemma unitProd (l : List ℝ) (h : ∀ x ∈ l, 0 ≤ x ∧ x ≤ 1) :
    0 ≤ l.prod ∧ l.prod ≤ 1 := by
  induction l with
  | nil => simp
  | cons a l ih =>
    have ha := h a (List.mem_cons_self a l)
    have hl := ih (fun x hx => h x (List.mem_cons_of_mem a hx))
    rw [List.prod_cons]
    exact ⟨mul_nonneg ha.1 hl.1, by nlinarith [ha.1, ha.2, hl.1, hl.2]⟩

/-- For a non-empty forecast series, a longer horizon never reports a lower
fill probability, on either side. -/
lemma horizonPoint_mono (b s : ℝ) (fd : List (PriceDataPoint ℝ))
    (hfd : ¬ fd.length = 0) (h₁ h₂ : ℕ) (h1pos : 1 ≤ h₁) (hle : h₁ ≤ h₂) :
    (horizonPoint b s fd h₁).1.probability ≤
        (horizonPoint b s fd h₂).1.probability ∧
      (horizonPoint b s fd h₁).2.probability ≤
        (horizonPoint b s fd h₂).2.probability := by
  have hlen1 : ¬ (fd.take (h₁ * 12)).length = 0 := by
    simp only [List.length_take]
    omega
  have hlen2 : ¬ (fd.take (h₂ * 12)).length = 0 := by
    simp only [List.length_take]
    omega
  have hsub : fd.take (h₁ * 12) = (fd.take (h₂ * 12)).take (h₁ * 12) := by
    rw [List.take_take]
    congr 1
    omega
  have hfac : intervalFactors b s (fd.take (h₂ * 12)) =
      intervalFactors b s (fd.take (h₁ * 12)) ++
        intervalFactors b s ((fd.take (h₂ * 12)).drop (h₁ * 12)) := by
    conv_lhs => rw [← List.take_append_drop (h₁ * 12) (fd.take (h₂ * 12))]
    rw [← hsub]
    unfold intervalFactors
    rw [List.filterMap_append]
  have hm1 := unitProd ((intervalFactors b s (fd.take (h₁ * 12))).map
      (fun f => f.1))
    (by intro x hx
        rw [List.mem_map] at hx
        obtain ⟨f, hf, hx⟩ := hx
        subst hx
        exact (intervalFactors_mem b s _ f hf).1)
  have hm1r := unitProd ((intervalFactors b s
      ((fd.take (h₂ * 12)).drop (h₁ * 12))).map (fun f => f.1))
    (by intro x hx
        rw [List.mem_map] at hx
        obtain ⟨f, hf, hx⟩ := hx
        subst hx
        exact (intervalFactors_mem b s _ f hf).1)
  have hm2 := unitProd ((intervalFactors b s (fd.take (h₁ * 12))).map
      (fun f => f.2))
    (by intro x hx
        rw [List.mem_map] at hx
        obtain ⟨f, hf, hx⟩ := hx
        subst hx
        exact (intervalFactors_mem b s _ f hf).2)
  have hm2r := unitProd ((intervalFactors b s
      ((fd.take (h₂ * 12)).drop (h₁ * 12))).map (fun f => f.2))
    (by intro x hx
        rw [List.mem_map] at hx
        obtain ⟨f, hf, hx⟩ := hx
        subst hx
        exact (intervalFactors_mem b s _ f hf).2)
  unfold horizonPoint
  dsimp only []
  rw [if_neg hlen1, if_neg hlen2, hfac, List.map_append, List.prod_append,
    List.map_append, List.prod_append]
  constructor
  · dsimp only []
    nlinarith [hm1.1, hm1.2, hm1r.1, hm1r.2]
  · dsimp only []
    nlinarith [hm2.1, hm2.2, hm2r.1, hm2r.2]

/-- Claim C4: for fixed offers and forecast data, the reported fill
probabilities of `calculateFulfilmentProbability` are monotone in the time
horizon 1h → 3h → 6h, on both the buy and the sell side. -/
theorem c4_fulfilment_probability_monotone (b s : ℝ)
    (fd : List (PriceDataPoint ℝ)) :
    (calculateFulfilmentProbability b s fd).elim True
      (fun a => List.Chain' (fun p q => p.probability ≤ q.probability) a.buy ∧
        List.Chain' (fun p q => p.probability ≤ q.probability) a.sell) := by
  unfold calculateFulfilmentProbability
  dsimp only []
  split
  · exact trivial
  · rename_i hlen
    have h13 := horizonPoint_mono b s fd hlen 1 3 (by norm_num) (by norm_num)
    have h36 := horizonPoint_mono b s fd hlen 3 6 (by norm_num) (by norm_num)
    dsimp only [Option.elim]
    exact ⟨List.chain'_cons.mpr ⟨h13.1, List.chain'_cons.mpr
        ⟨h36.1, List.chain'_singleton _⟩⟩,
      List.chain'_cons.mpr ⟨h13.2, List.chain'_cons.mpr
        ⟨h36.2, List.chain'_singleton _⟩⟩⟩

end ClaimC4

section ClaimC6

/-- Spec-side definition (following the words of the specification): the
one-step-ahead residuals `v_i − (level + phi·trend)` collected at steps
`i > 0` while consuming the history, with no residual contributed for the
first point. -/
noncomputable def specResidualsAux (alpha beta phi : ℝ) :
    ℝ → ℝ → List ℝ → List ℝ
  | _, _, [] => []
  | level, trend, v :: rest =>
    (v - (level + phi * trend)) ::
      specResidualsAux alpha beta phi
        (alpha * v + (1 - alpha) * (level + phi * trend))
        (beta * (alpha * v + (1 - alpha) * (level + phi * trend) - level) +
          (1 - beta) * phi * trend) rest

/-- Spec-side definition: the residual list described by the specification,
started from the initial level `series[0]` and trend `series[1] − series[0]`
over the remaining history (`n − 1` residuals, no seed). -/
noncomputable def specOneStepResiduals (series : List ℝ)
    (alpha beta phi : ℝ) : List ℝ :=
  specResidualsAux alpha beta phi (series.getD 0 0)
    (series.getD 1 0 - series.getD 0 0) (series.drop 1)

/-- The training fold appends exactly the spec-side residual sequence to the
accumulator. -/
lemma dtesFoldl_residuals (alpha beta phi : ℝ) (vs : List ℝ) :
    ∀ level trend acc,
      ((vs.foldl (dtesStep alpha beta phi) (level, trend, acc)).2.2 =
        acc ++ specResidualsAux alpha beta phi level trend vs) := by
  induction vs with
  | nil => intro l t acc; simp [specResidualsAux]
  | cons v rest ih =>
    intro l t acc
    rw [List.foldl_cons, ih]
    simp [dtesStep, specResidualsAux, List.append_assoc]

/-- The residual list actually used by the code is a seeded zero followed by
the spec-side one-step residuals. -/
lemma dtesTrain_residuals (series : List ℝ) (alpha beta phi : ℝ) :
    (dtesTrain series alpha beta phi).2.2 =
      0 :: specOneStepResiduals series alpha beta phi := by
  unfold dtesTrain specOneStepResiduals
  rw [dtesFoldl_residuals]
  simp

/-- The spec-side residual list has one entry per step after the first. -/
lemma specResidualsAux_length (alpha beta phi : ℝ) (vs : List ℝ) :
    ∀ level trend,
      (specResidualsAux alpha beta phi level trend vs).length = vs.length := by
  induction vs with
  | nil => intro l t; simp [specResidualsAux]
  | cons v rest ih => intro l t; simp [specResidualsAux, ih]

end ClaimC6

section ClaimC6Main

/-- Claim C6 (amended): for a series of length ≥ 2, the confidence bands of
`dampedTrendExponentialSmoothing` use the half-width
`1.96·stdDev·sqrt(k)` where `stdDev` is the sample standard deviation
(divisor count − 1) of a residual list consisting of a seeded zero for the
first point followed by the `n − 1` one-step-ahead residuals
`v_i − (level + phi·trend)`; the spec-side list of exactly the `n − 1`
residuals has length `n − 1`, but the code prepends an artificial zero. -/
theorem c6_stddev_residuals (series : List ℝ) (alpha beta phi : ℝ)
    (forecastLength : ℕ) (h2 : 2 ≤ series.length) :
    (specOneStepResiduals series alpha beta phi).length =
        series.length - 1 ∧
      (dampedTrendExponentialSmoothing series alpha beta phi
          forecastLength).upper =
        (List.range forecastLength).map (fun j =>
          dtesMean (dtesTrain series alpha beta phi).1
              (dtesTrain series alpha beta phi).2.1 phi (j + 1) +
            dtesErrorMargin
              (sampleStdDev
                (0 :: specOneStepResiduals series alpha beta phi))
              (j + 1)) ∧
      (dampedTrendExponentialSmoothing series alpha beta phi
          forecastLength).lower =
        (List.range forecastLength).map (fun j =>
          dtesMean (dtesTrain series alpha beta phi).1
              (dtesTrain series alpha beta phi).2.1 phi (j + 1) -
            dtesErrorMargin
              (sampleStdDev
                (0 :: specOneStepResiduals series alpha beta phi))
              (j + 1)) := by
  refine ⟨?_, ?_, ?_⟩
  · unfold specOneStepResiduals
    rw [specResidualsAux_length]
    simp
  · unfold dampedTrendExponentialSmoothing
    dsimp only []
    rw [if_neg (by omega), dtesTrain_residuals]
  · unfold dampedTrendExponentialSmoothing
    dsimp only []
    rw [if_neg (by omega), dtesTrain_residuals]

/-- Witness for claim C6 at the concrete series `[0, 1]`. -/
theorem c6_stddev_residuals_witness :
    2 ≤ ([(0:ℝ), 1] : List ℝ).length ∧
      ((specOneStepResiduals [(0:ℝ), 1] 1 1 1).length =
          ([(0:ℝ), 1] : List ℝ).length - 1 ∧
        (dampedTrendExponentialSmoothing [(0:ℝ), 1] 1 1 1 1).upper =
          (List.range 1).map (fun j =>
            dtesMean (dtesTrain [(0:ℝ), 1] 1 1 1).1
                (dtesTrain [(0:ℝ), 1] 1 1 1).2.1 1 (j + 1) +
              dtesErrorMargin
                (sampleStdDev (0 :: specOneStepResiduals [(0:ℝ), 1] 1 1 1))
                (j + 1)) ∧
        (dampedTrendExponentialSmoothing [(0:ℝ), 1] 1 1 1 1).lower =
          (List.range 1).map (fun j =>
            dtesMean (dtesTrain [(0:ℝ), 1] 1 1 1).1
                (dtesTrain [(0:ℝ), 1] 1 1 1).2.1 1 (j + 1) -
              dtesErrorMargin
                (sampleStdDev (0 :: specOneStepResiduals [(0:ℝ), 1] 1 1 1))
                (j + 1))) :=
  ⟨by norm_num, c6_stddev_residuals [(0:ℝ), 1] 1 1 1 1 (by norm_num)⟩

/-- Claim C6 as stated is false: on the series `[0, 150, 296.5776]` with the
production parameters (α = 0.8, β = 0.05, φ = 0.98) the two one-step
residuals are both 3, so the sample standard deviation of exactly those
residuals is 0; but the code seeds the residual list with an extra zero and
computes √3 instead. -/
theorem c6_counterexample :
    sampleStdDev
        (dtesTrain [(0:ℝ), 150, 296.5776] 0.8 0.05 0.98).2.2 =
          Real.sqrt 3 ∧
      sampleStdDev
        (specOneStepResiduals [(0:ℝ), 150, 296.5776] 0.8 0.05 0.98) = 0 ∧
      Real.sqrt 3 ≠ 0 := by
  have hres : (dtesTrain [(0:ℝ), 150, 296.5776] 0.8 0.05 0.98).2.2 =
      [0, 3, 3] := by
    unfold dtesTrain
    norm_num [dtesStep, List.foldl_cons, List.foldl_nil]
  have hspec : specOneStepResiduals [(0:ℝ), 150, 296.5776] 0.8 0.05 0.98 =
      [3, 3] := by
    unfold specOneStepResiduals
    norm_num [specResidualsAux]
  refine ⟨?_, ?_, ne_of_gt (Real.sqrt_pos.mpr (by norm_num))⟩
  · rw [hres]
    unfold sampleStdDev
    norm_num
  · rw [hspec]
    unfold sampleStdDev
    norm_num

end ClaimC6Main

section ClaimC5

/-- Characterisation of a forecast tick: each emitted band field is the
corresponding damped-trend output, floored at 0. -/
lemma generateForecast_tick (history : List (PriceDataPoint ℝ)) (i : ℕ)
    (hi : i < (generateForecast history).length) :
    ((generateForecast history).getD i dfltPoint).forecastHigh =
        some (max 0 ((dampedTrendExponentialSmoothing
          (extractSeries history (fun p => p.fairPrice)) 0.8 0.05 0.98
          72).upper.getD i 0)) ∧
      ((generateForecast history).getD i dfltPoint).forecastLow =
        some (max 0 ((dampedTrendExponentialSmoothing
          (extractSeries history (fun p => p.fairPrice)) 0.8 0.05 0.98
          72).lower.getD i 0)) ∧
      ((generateForecast history).getD i dfltPoint).forecastHigh_upper =
        some (max 0 ((dampedTrendExponentialSmoothing
          (extractSeries history (fun p => p.avgHighPrice)) 0.8 0.05 0.98
          72).upper.getD i 0)) ∧
      ((generateForecast history).getD i dfltPoint).forecastHigh_lower =
        some (max 0 ((dampedTrendExponentialSmoothing
          (extractSeries history (fun p => p.avgHighPrice)) 0.8 0.05 0.98
          72).lower.getD i 0)) ∧
      ((generateForecast history).getD i dfltPoint).forecastLow_upper =
        some (max 0 ((dampedTrendExponentialSmoothing
          (extractSeries history (fun p => p.avgLowPrice)) 0.8 0.05 0.98
          72).upper.getD i 0)) ∧
      ((generateForecast history).getD i dfltPoint).forecastLow_lower =
        some (max 0 ((dampedTrendExponentialSmoothing
          (extractSeries history (fun p => p.avgLowPrice)) 0.8 0.05 0.98
          72).lower.getD i 0)) := by
  unfold generateForecast at hi ⊢
  dsimp only [] at hi ⊢
  by_cases hg : (extractSeries history (fun p => p.fairPrice)).length < 12 ∨
      (extractSeries history (fun p => p.avgHighPrice)).length < 12 ∨
      (extractSeries history (fun p => p.avgLowPrice)).length < 12
  · rw [if_pos hg] at hi
    simp at hi
  · rw [if_neg hg] at hi ⊢
    rw [List.length_map, List.length_range] at hi
    rw [getD_range_map _ _ _ _ hi]
    exact ⟨rfl, rfl, rfl, rfl, rfl, rfl⟩

/-- At every index, the damped-trend lower band does not exceed the upper
band (read through `getD`). -/
lemma dtes_band_getD (series : List ℝ) (a b phi : ℝ) (n i : ℕ) :
    (dampedTrendExponentialSmoothing series a b phi n).lower.getD i 0 ≤
      (dampedTrendExponentialSmoothing series a b phi n).upper.getD i 0 := by
  unfold dampedTrendExponentialSmoothing
  dsimp only []
  split
  · simp
  · by_cases hi : i < n
    · rw [getD_range_map _ _ _ _ hi, getD_range_map _ _ _ _ hi]
      have he : 0 ≤ dtesErrorMargin
          (sampleStdDev (dtesTrain series a b phi).2.2) (i + 1) := by
        unfold dtesErrorMargin sampleStdDev
        positivity
      linarith
    · rw [List.getD_eq_getElem?_getD, List.getD_eq_getElem?_getD,
        List.getElem?_eq_none (by simp; omega),
        List.getElem?_eq_none (by simp; omega)]

/-- The confidence half-width is non-decreasing in the step index for any
non-negative standard deviation. -/
lemma dtesErrorMargin_mono (s : ℝ) (hs : 0 ≤ s) (k : ℕ) :
    dtesErrorMargin s k ≤ dtesErrorMargin s (k + 1) := by
  unfold dtesErrorMargin
  have h : Real.sqrt (k : ℝ) ≤ Real.sqrt ((k + 1 : ℕ) : ℝ) :=
    Real.sqrt_le_sqrt (by push_cast; linarith)
  have h196 : 0 ≤ 1.96 * s := mul_nonneg (by norm_num) hs
  calc 1.96 * s * Real.sqrt (k : ℝ) ≤ 1.96 * s * Real.sqrt ((k + 1 : ℕ) : ℝ) :=
    mul_le_mul_of_nonneg_left h h196
  _ = _ := rfl

/-- Claim C5 (amended): every emitted forecast tick carries a non-negative
floored band width on all three series, and the un-floored confidence
half-width `1.96·stdDev·√k` is monotone non-decreasing in the step index;
the flooring `max 0` can however break monotonicity of the emitted width. -/
theorem c5_band_width_floored (history : List (PriceDataPoint ℝ)) (i : ℕ)
    (hi : i < (generateForecast history).length) :
    (0 ≤ ((generateForecast history).getD i dfltPoint).forecastHigh.getD 0 -
        ((generateForecast history).getD i dfltPoint).forecastLow.getD 0) ∧
      (0 ≤ ((generateForecast history).getD i
            dfltPoint).forecastHigh_upper.getD 0 -
        ((generateForecast history).getD i
            dfltPoint).forecastHigh_lower.getD 0) ∧
      (0 ≤ ((generateForecast history).getD i
            dfltPoint).forecastLow_upper.getD 0 -
        ((generateForecast history).getD i
            dfltPoint).forecastLow_lower.getD 0) ∧
      (∀ s : ℝ, 0 ≤ s → ∀ k : ℕ,
        dtesErrorMargin s k ≤ dtesErrorMargin s (k + 1)) := by
  obtain ⟨h1, h2, h3, h4, h5, h6⟩ := generateForecast_tick history i hi
  refine ⟨?_, ?_, ?_, fun s hs k => dtesErrorMargin_mono s hs k⟩
  · rw [h1, h2]
    simp only [Option.getD_some]
    have hb := dtes_band_getD (extractSeries history (fun p => p.fairPrice))
      0.8 0.05 0.98 72 i
    have hmax := max_le_max (le_refl (0 : ℝ)) hb
    linarith
  · rw [h3, h4]
    simp only [Option.getD_some]
    have hb := dtes_band_getD
      (extractSeries history (fun p => p.avgHighPrice)) 0.8 0.05 0.98 72 i
    have hmax := max_le_max (le_refl (0 : ℝ)) hb
    linarith
  · rw [h5, h6]
    simp only [Option.getD_some]
    have hb := dtes_band_getD
      (extractSeries history (fun p => p.avgLowPrice)) 0.8 0.05 0.98 72 i
    have hmax := max_le_max (le_refl (0 : ℝ)) hb
    linarith

end ClaimC5

section ClaimC5Concrete

/-- A linearly declining 12-point price series (3200, 3000, …, 1000). -/
noncomputable def c5list : List ℝ :=
  [3200, 3000, 2800, 2600, 2400, 2200, 2000, 1800, 1600, 1400, 1200, 1000]

/-- A 12-tick history whose fair, high and low series all equal `c5list`. -/
noncomputable def c5hist : List (PriceDataPoint ℝ) :=
  c5list.map (fun v =>
    { timestamp := 0, avgHighPrice := some v, avgLowPrice := some v,
      fairPrice := some v })

/-- Final level of the damped-trend training on `c5list`. -/
noncomputable def c5L : ℝ :=
  366646794718129519315730201879293 / 363797880709171295166015625000

/-- Final trend of the damped-trend training on `c5list`. -/
noncomputable def c5T : ℝ :=
  -(38594661820688242015495805899621 / 227373675443232059478759765625)

/-- Residual list of the damped-trend training on `c5list`. -/
noncomputable def c5res : List ℝ :=
  [0, -4, -(5352 / 625), -(5072226 / 390625), -(4183297138 / 244140625),
   -(3204700118769 / 152587890625), -(2346137224116672 / 95367431640625),
   -(3331709134106996147 / 119209289550781250),
   -(2314279574052375977811 / 74505805969238281250),
   -(3162523741284745765599111 / 93132257461547851562500),
   -(533334002853280822044026692 / 14551915228366851806640625),
   -(2848914008958224149714576879293 / 72759576141834259033203125000)]

/-- Sample variance (divisor 11) of `c5res`. -/
noncomputable def c5var : ℝ :=
  118583429729150165659957455140872600737484858758288515626418339 /
    698802181484797779731366063060704618692398071289062500000000

/-- The fair-price series extracted from `c5hist` is `c5list`. -/
lemma c5_extract_fair : extractSeries c5hist (fun p => p.fairPrice) =
    c5list := by
  unfold extractSeries c5hist
  rw [List.filterMap_map]
  have hmap : c5list.filterMap ((fun (p : PriceDataPoint ℝ) => p.fairPrice) ∘
      (fun v => ({ timestamp := 0, avgHighPrice := some v, avgLowPrice := some v, fairPrice := some v } : PriceDataPoint ℝ))) =
      c5list := List.filterMap_some c5list
  rw [hmap]
  have hall : ∀ a ∈ c5list, (fun p => decide ((0:ℝ) < p)) a = true := by
    intro a ha
    unfold c5list at ha
    simp only [List.mem_cons, List.not_mem_nil, or_false] at ha
    rcases ha with rfl|rfl|rfl|rfl|rfl|rfl|rfl|rfl|rfl|rfl|rfl|rfl <;>
      · simp only [decide_eq_true_eq]; norm_num
  exact List.filter_eq_self.mpr hall

/-- The high-price series extracted from `c5hist` is `c5list`. -/
lemma c5_extract_high : extractSeries c5hist (fun p => p.avgHighPrice) =
    c5list := by
  unfold extractSeries c5hist
  rw [List.filterMap_map]
  have hmap : c5list.filterMap ((fun (p : PriceDataPoint ℝ) => p.avgHighPrice) ∘
      (fun v => ({ timestamp := 0, avgHighPrice := some v, avgLowPrice := some v, fairPrice := some v } : PriceDataPoint ℝ))) =
      c5list := List.filterMap_some c5list
  rw [hmap]
  have hall : ∀ a ∈ c5list, (fun p => decide ((0:ℝ) < p)) a = true := by
    intro a ha
    unfold c5list at ha
    simp only [List.mem_cons, List.not_mem_nil, or_false] at ha
    rcases ha with rfl|rfl|rfl|rfl|rfl|rfl|rfl|rfl|rfl|rfl|rfl|rfl <;>
      · simp only [decide_eq_true_eq]; norm_num
  exact List.filter_eq_self.mpr hall

/-- The low-price series extracted from `c5hist` is `c5list`. -/
lemma c5_extract_low : extractSeries c5hist (fun p => p.avgLowPrice) =
    c5list := by
  unfold extractSeries c5hist
  rw [List.filterMap_map]
  have hmap : c5list.filterMap ((fun (p : PriceDataPoint ℝ) => p.avgLowPrice) ∘
      (fun v => ({ timestamp := 0, avgHighPrice := some v, avgLowPrice := some v, fairPrice := some v } : PriceDataPoint ℝ))) =
      c5list := List.filterMap_some c5list
  rw [hmap]
  have hall : ∀ a ∈ c5list, (fun p => decide ((0:ℝ) < p)) a = true := by
    intro a ha
    unfold c5list at ha
    simp only [List.mem_cons, List.not_mem_nil, or_false] at ha
    rcases ha with rfl|rfl|rfl|rfl|rfl|rfl|rfl|rfl|rfl|rfl|rfl|rfl <;>
      · simp only [decide_eq_true_eq]; norm_num
  exact List.filter_eq_self.mpr hall

/-- The damped-trend training on `c5list` with the production parameters,
evaluated exactly. -/
lemma c5_train : dtesTrain c5list 0.8 0.05 0.98 = (c5L, c5T, c5res) := by
  unfold dtesTrain c5list c5L c5T c5res
  norm_num [dtesStep, List.foldl_cons, List.foldl_nil]

/-- The squared sample standard deviation of the training residuals. -/
lemma c5_sigma_sq : sampleStdDev c5res ^ 2 = c5var := by
  unfold sampleStdDev
  dsimp only []
  have h : ((c5res.map (fun e => (e - c5res.sum / (c5res.length : ℝ)) ^ 2)).sum /
      ((c5res.length : ℝ) - 1)) = c5var := by
    unfold c5res c5var
    norm_num
  rw [h, Real.sq_sqrt (by unfold c5var; norm_num)]

end ClaimC5Concrete

section ClaimC5Final

/-- The upper band of the `c5list` forecast at index `i`. -/
lemma c5_upper_getD (i : ℕ) (hi : i < 72) :
    (dampedTrendExponentialSmoothing c5list 0.8 0.05 0.98 72).upper.getD i 0 =
      dtesMean c5L c5T 0.98 (i + 1) +
        dtesErrorMargin (sampleStdDev c5res) (i + 1) := by
  unfold dampedTrendExponentialSmoothing
  rw [if_neg (by norm_num [c5list])]
  dsimp only []
  rw [c5_train]
  dsimp only []
  rw [getD_range_map _ _ _ _ hi]

/-- The lower band of the `c5list` forecast at index `i`. -/
lemma c5_lower_getD (i : ℕ) (hi : i < 72) :
    (dampedTrendExponentialSmoothing c5list 0.8 0.05 0.98 72).lower.getD i 0 =
      dtesMean c5L c5T 0.98 (i + 1) -
        dtesErrorMargin (sampleStdDev c5res) (i + 1) := by
  unfold dampedTrendExponentialSmoothing
  rw [if_neg (by norm_num [c5list])]
  dsimp only []
  rw [c5_train]
  dsimp only []
  rw [getD_range_map _ _ _ _ hi]

/-- The forecast generated from `c5hist` has the full 72 ticks. -/
lemma c5_genlen : (generateForecast c5hist).length = 72 := by
  unfold generateForecast
  dsimp only []
  rw [c5_extract_fair, c5_extract_high, c5_extract_low]
  rw [if_neg (by norm_num [c5list])]
  rw [List.length_map, List.length_range]
  unfold dampedTrendExponentialSmoothing
  rw [if_neg (by norm_num [c5list])]
  dsimp only []
  rw [List.length_map, List.length_range]

/-- The residual standard deviation is non-negative. -/
lemma c5_sigma_nonneg : 0 ≤ sampleStdDev c5res := by
  unfold sampleStdDev
  positivity

/-- The mean forecast two steps out is positive. -/
lemma c5_m2_pos : 0 < dtesMean c5L c5T 0.98 2 := by
  unfold dtesMean trendMultiplier c5L c5T
  norm_num [List.range_succ]

/-- The mean forecast eight steps out, exactly. -/
lemma c5_m8 : dtesMean c5L c5T 0.98 8 =
    -(2073185013924023809071902319742849022446460171 /
      8881784197001252323389053344726562500000000) := by
  unfold dtesMean trendMultiplier c5L c5T
  norm_num [List.range_succ]

/-- Eight steps out the half-width no longer reaches back to zero: it is at
most the magnitude of the (negative) mean forecast. -/
lemma c5_e8_le : dtesErrorMargin (sampleStdDev c5res) 8 ≤
    -(dtesMean c5L c5T 0.98 8) := by
  have he0 : 0 ≤ dtesErrorMargin (sampleStdDev c5res) 8 := by
    unfold dtesErrorMargin sampleStdDev
    positivity
  have hb : (0:ℝ) ≤ -(dtesMean c5L c5T 0.98 8) := by
    rw [c5_m8]
    norm_num
  have hsq : dtesErrorMargin (sampleStdDev c5res) 8 ^ 2 =
      1.96 ^ 2 * c5var * ((8:ℕ) : ℝ) := by
    unfold dtesErrorMargin
    rw [mul_pow, mul_pow, c5_sigma_sq,
      Real.sq_sqrt (by positivity : (0:ℝ) ≤ ((8:ℕ) : ℝ))]
  have hab : dtesErrorMargin (sampleStdDev c5res) 8 ^ 2 ≤
      (-(dtesMean c5L c5T 0.98 8)) ^ 2 := by
    rw [hsq, c5_m8]
    unfold c5var
    norm_num
  calc dtesErrorMargin (sampleStdDev c5res) 8 =
      Real.sqrt (dtesErrorMargin (sampleStdDev c5res) 8 ^ 2) :=
    (Real.sqrt_sq he0).symm
  _ ≤ Real.sqrt ((-(dtesMean c5L c5T 0.98 8)) ^ 2) := Real.sqrt_le_sqrt hab
  _ = -(dtesMean c5L c5T 0.98 8) := Real.sqrt_sq hb

/-- Two steps out the half-width is strictly positive. -/
lemma c5_e2_pos : 0 < dtesErrorMargin (sampleStdDev c5res) 2 := by
  have hvpos : (0:ℝ) < c5var := by unfold c5var; norm_num
  have hσpos : 0 < sampleStdDev c5res := by
    nlinarith [c5_sigma_sq, c5_sigma_nonneg, hvpos]
  unfold dtesErrorMargin
  have h2 : (0:ℝ) < Real.sqrt ((2:ℕ) : ℝ) :=
    Real.sqrt_pos.mpr (by norm_num)
  exact mul_pos (mul_pos (by norm_num) hσpos) h2

/-- Claim C5 as stated is false: on the declining series of `c5hist` the
emitted (floored) band width at forecast index 7 is smaller than at index 1
— flooring at 0 collapses the band once the mean forecast goes negative, so
the width is not monotone non-decreasing in the step index. -/
theorem c5_counterexample :
    ((generateForecast c5hist).getD 7 dfltPoint).forecastHigh.getD 0 -
        ((generateForecast c5hist).getD 7 dfltPoint).forecastLow.getD 0 <
      ((generateForecast c5hist).getD 1 dfltPoint).forecastHigh.getD 0 -
        ((generateForecast c5hist).getD 1 dfltPoint).forecastLow.getD 0 := by
  obtain ⟨h7H, h7L, _, _, _, _⟩ := generateForecast_tick c5hist 7
    (by rw [c5_genlen]; norm_num)
  obtain ⟨h1H, h1L, _, _, _, _⟩ := generateForecast_tick c5hist 1
    (by rw [c5_genlen]; norm_num)
  rw [c5_extract_fair] at h7H h7L h1H h1L
  rw [c5_upper_getD 7 (by norm_num)] at h7H
  rw [c5_lower_getD 7 (by norm_num)] at h7L
  rw [c5_upper_getD 1 (by norm_num)] at h1H
  rw [c5_lower_getD 1 (by norm_num)] at h1L
  rw [h7H, h7L, h1H, h1L]
  simp only [Option.getD_some]
  have hm8neg : dtesMean c5L c5T 0.98 (7 + 1) ≤ 0 := by
    rw [show (7 + 1 : ℕ) = 8 from rfl, c5_m8]
    norm_num
  have he8 : dtesErrorMargin (sampleStdDev c5res) (7 + 1) ≤
      -(dtesMean c5L c5T 0.98 (7 + 1)) := c5_e8_le
  have he8nn : 0 ≤ dtesErrorMargin (sampleStdDev c5res) (7 + 1) := by
    unfold dtesErrorMargin sampleStdDev
    positivity
  have he2 : 0 < dtesErrorMargin (sampleStdDev c5res) (1 + 1) := c5_e2_pos
  have hm2 : 0 < dtesMean c5L c5T 0.98 (1 + 1) := c5_m2_pos
  rw [max_eq_left (by linarith : dtesMean c5L c5T 0.98 (7 + 1) +
      dtesErrorMargin (sampleStdDev c5res) (7 + 1) ≤ 0),
    max_eq_left (by linarith : dtesMean c5L c5T 0.98 (7 + 1) -
      dtesErrorMargin (sampleStdDev c5res) (7 + 1) ≤ 0)]
  have hR : max 0 (dtesMean c5L c5T 0.98 (1 + 1) -
      dtesErrorMargin (sampleStdDev c5res) (1 + 1)) <
      max 0 (dtesMean c5L c5T 0.98 (1 + 1) +
        dtesErrorMargin (sampleStdDev c5res) (1 + 1)) := by
    rw [max_eq_right (by linarith : (0:ℝ) ≤ dtesMean c5L c5T 0.98 (1 + 1) +
        dtesErrorMargin (sampleStdDev c5res) (1 + 1))]
    exact max_lt (by linarith) (by linarith)
  linarith

/-- Witness for the amended claim C5 at the concrete history `c5hist` and
index 0. -/
theorem c5_band_width_floored_witness :
    0 < (generateForecast c5hist).length ∧
      ((0 ≤ ((generateForecast c5hist).getD 0 dfltPoint).forecastHigh.getD 0 -
          ((generateForecast c5hist).getD 0 dfltPoint).forecastLow.getD 0) ∧
        (0 ≤ ((generateForecast c5hist).getD 0
              dfltPoint).forecastHigh_upper.getD 0 -
          ((generateForecast c5hist).getD 0
              dfltPoint).forecastHigh_lower.getD 0) ∧
        (0 ≤ ((generateForecast c5hist).getD 0
              dfltPoint).forecastLow_upper.getD 0 -
          ((generateForecast c5hist).getD 0
              dfltPoint).forecastLow_lower.getD 0) ∧
        (∀ s : ℝ, 0 ≤ s → ∀ k : ℕ,
          dtesErrorMargin s k ≤ dtesErrorMargin s (k + 1))) :=
  ⟨by rw [c5_genlen]; norm_num,
    c5_band_width_floored c5hist 0 (by rw [c5_genlen]; norm_num)⟩

end ClaimC5Final
